import Mathlib

/-!
# Arkanoid: a verification development for `sources/main.c`

The simulation layer of the brick-breaker is embedded as pure Lean functions.

Conventions of the embedding:

* C `float` values (`Vector2`, `Rectangle` fields and the `#define`d float
  constants) are rationals with exact arithmetic.  Every value the game reaches
  from its initial state is a multiple of 1/4 below 2^11 in magnitude, where
  binary32 arithmetic is exact; outside that range the rational model is an
  idealisation of binary32.
* `unsigned int` values are naturals, the product `height * width` is taken
  modulo 2^32, and the conversion of that product to `int` (the return type of
  `WallBrickCount`, the type of the loop counters) is two's complement.
* A function that mutates through a pointer takes the pointee and returns the
  new pointee; `IsKeyDown` and `WindowShouldClose` are inputs of the frame.
* `CheckCollisionCircleRec` belongs to raylib; it is a parameter `chk` of every
  definition that calls it.
-/

namespace Arkanoid

/-! ## Constants -/

def SCREEN_WIDTH : ℚ := 800
def SCREEN_HEIGHT : ℚ := 450
def PADDLE_VELOCITY : ℚ := 4
def PADDLE_HEIGHT : ℚ := 20
def PADDLE_WIDTH : ℚ := 80
def BRICK_HEIGHT : ℚ := 30
def BRICK_WIDTH : ℚ := 60
def BALL_RADIUS : ℚ := 10
def BALL_VELOCITY : ℚ := 2
def WALL_WIDTH : Nat := 12
def WALL_HEIGHT : Nat := 6

/-- The modulus of `unsigned int` arithmetic. -/
def UINT_MOD : Nat := 2 ^ 32

/-- The largest `int`. -/
def INT_MAX : Nat := 2 ^ 31 - 1

/-- Conversion of an `unsigned int` value to `int` (two's complement). -/
def toInt32 (n : Nat) : Int :=
  if n % UINT_MOD ≤ INT_MAX then ((n % UINT_MOD : Nat) : Int)
  else ((n % UINT_MOD : Nat) : Int) - (UINT_MOD : Int)

/-! ## Game objects -/

/-- The raylib `Vector2`: two floats. -/
structure Vector2 where
  x : ℚ
  y : ℚ
  deriving DecidableEq

/-- The raylib `Rectangle`: top-left corner, width and height. -/
structure Rectangle where
  x : ℚ
  y : ℚ
  width : ℚ
  height : ℚ
  deriving DecidableEq

/-- The raylib `Color`: four bytes. -/
structure Color where
  r : Nat
  g : Nat
  b : Nat
  a : Nat
  deriving DecidableEq

/-- The raylib constant `GREEN`. -/
def GREEN : Color := ⟨0, 228, 48, 255⟩

/-- The raylib constant `LIGHTGRAY`. -/
def LIGHTGRAY : Color := ⟨200, 200, 200, 255⟩

inductive ObjType where
  | BRICK
  | PADDLE
  deriving DecidableEq

structure Brick where
  position : Vector2
  dimensions : Vector2
  color : Color
  health : Nat
  type : ObjType
  deriving DecidableEq

/-- The `Wall`: `bricks` is the allocation the pointer `bricks` refers to. -/
structure Wall where
  height : Nat
  width : Nat
  bricks : List Brick
  deriving DecidableEq

structure Paddle where
  position : Vector2
  dimensions : Vector2
  color : Color
  type : ObjType
  deriving DecidableEq

structure Ball where
  active : Bool
  position : Vector2
  velocity : Vector2
  color : Color
  deriving DecidableEq

/-! ## Wall -/

/-- The `for` loop of `WallBuild`: the first argument counts the passes still
to run, `i` is the loop counter, `even` and `position` are the two locals the
body updates.  The result lists the bricks written at `i`, `i + 1`, .... -/
def WallBuild.loop (width : Nat) (startPos : ℚ) : Nat → Nat → Bool → Vector2 → List Brick
  | 0, _, _, _ => []
  | n + 1, i, even, position =>
    let even := if i % width = 0 then !even else even
    let position : Vector2 :=
      if i % width = 0 then ⟨startPos, position.y + BRICK_HEIGHT⟩
      else ⟨position.x + BRICK_WIDTH, position.y⟩
    let brick : Brick :=
      { position := ⟨position.x, position.y⟩
        dimensions := ⟨BRICK_WIDTH, BRICK_HEIGHT⟩
        color := GREEN
        health := 1
        type := ObjType.BRICK }
    let brick := if even then { brick with color := LIGHTGRAY } else brick
    brick :: WallBuild.loop width startPos n (i + 1) even position

/-- `WallBuild`: the loop runs while `i < width * height`, an `unsigned int`
product.  The counter `i` is an `int`: the source is defined only while the
product does not exceed `INT_MAX`. -/
def WallBuild (height width : Nat) : Wall :=
  let startPos : ℚ := (SCREEN_WIDTH - (width : ℚ) * BRICK_WIDTH) / 2
  { height := height
    width := width
    bricks := WallBuild.loop width startPos ((width * height) % UINT_MOD) 0 false ⟨startPos, 0⟩ }

/-- `WallBrickCount`: the `unsigned int` product converted to the `int`
return type. -/
def WallBrickCount (wall : Wall) : Int :=
  toInt32 ((wall.height * wall.width) % UINT_MOD)

/-- The `for` loop of `WallBrickActiveCount`: passes still to run, counter
`i`, accumulator `activeCount`.  Reading outside the allocation is undefined
in C; here it ends the loop. -/
def WallBrickActiveCount.loop (bricks : List Brick) : Nat → Nat → Int → Int
  | 0, _, activeCount => activeCount
  | n + 1, i, activeCount =>
    match bricks[i]? with
    | none => activeCount
    | some b =>
      WallBrickActiveCount.loop bricks n (i + 1)
        (if b.health > 0 then activeCount + 1 else activeCount)

/-- `WallBrickActiveCount`: the loop runs while `i < WallBrickCount(wall)`, a
comparison of two `int`s, so it makes no pass when the count is negative. -/
def WallBrickActiveCount (wall : Wall) : Int :=
  WallBrickActiveCount.loop wall.bricks (WallBrickCount wall).toNat 0 0

/-- A wall whose allocation holds exactly `height * width` bricks, a product
that fits `int`, each with a health in the range of `unsigned int`. -/
def Wall.WF (wall : Wall) : Prop :=
  wall.height * wall.width ≤ INT_MAX ∧ wall.bricks.length = wall.height * wall.width
    ∧ ∀ b ∈ wall.bricks, b.health < UINT_MOD

instance (wall : Wall) : Decidable wall.WF := by
  unfold Wall.WF; exact inferInstance

/-! ## Paddle -/

def PaddleNew : Paddle :=
  { position := ⟨SCREEN_WIDTH / 2, SCREEN_HEIGHT - PADDLE_HEIGHT⟩
    dimensions := ⟨PADDLE_WIDTH, PADDLE_HEIGHT⟩
    color := GREEN
    type := ObjType.PADDLE }

/-- `PaddleMove`: `right` and `left` are `IsKeyDown(KEY_RIGHT)` and
`IsKeyDown(KEY_LEFT)`.  The second test reads the position the first
statement may have written. -/
def PaddleMove (right left : Bool) (paddle : Paddle) : Paddle :=
  let paddle :=
    if right ∧ paddle.position.x + paddle.dimensions.x ≤ SCREEN_WIDTH then
      { paddle with position := { paddle.position with x := paddle.position.x + PADDLE_VELOCITY } }
    else paddle
  if left ∧ paddle.position.x ≥ 0 then
    { paddle with position := { paddle.position with x := paddle.position.x - PADDLE_VELOCITY } }
  else paddle

/-- The paddle after a finite sequence of `PaddleMove` calls, each with its
own `(right, left)` key state, oldest call first. -/
def PaddleMoves (keys : List (Bool × Bool)) (paddle : Paddle) : Paddle :=
  keys.foldl (fun p k => PaddleMove k.1 k.2 p) paddle

/-! ## Ball -/

def BallNew : Ball :=
  { active := true
    color := GREEN
    velocity := ⟨BALL_VELOCITY, BALL_VELOCITY⟩
    position := ⟨SCREEN_WIDTH / 2, SCREEN_HEIGHT * 7 / 8 - 30⟩ }

def BallMove (ball : Ball) : Ball :=
  if !ball.active then ball
  else
    let ball := { ball with position := { ball.position with x := ball.position.x + ball.velocity.x } }
    let ball := { ball with position := { ball.position with y := ball.position.y + ball.velocity.y } }
    let ball :=
      if ball.position.x + BALL_RADIUS ≥ SCREEN_WIDTH then
        { ball with velocity := { ball.velocity with x := ball.velocity.x * -1 } }
      else ball
    let ball :=
      if ball.position.x - BALL_RADIUS ≤ 0 then
        { ball with velocity := { ball.velocity with x := ball.velocity.x * -1 } }
      else ball
    let ball :=
      if ball.position.y - BALL_RADIUS ≤ 0 then
        { ball with velocity := { ball.velocity with y := ball.velocity.y * -1 } }
      else ball
    if ball.position.y ≥ SCREEN_HEIGHT then { ball with active := false } else ball

/-! ## Collision -/

/-- The pair `(void *other, ObjType type)` of `BallHandleCollision`: the
constructor is the type tag, its argument the object the pointer refers to.
The `default` branch of the `switch` has no tag that reaches it. -/
inductive Obj where
  | brick (b : Brick)
  | paddle (p : Paddle)
  deriving DecidableEq

/-- The rectangle `BallHandleCollision` builds from a position and
dimensions. -/
def rectOf (position dimensions : Vector2) : Rectangle :=
  { x := position.x, y := position.y, width := dimensions.x, height := dimensions.y }

/-- `BallHandleCollision`: returns the `bool` result together with the ball
and the other object as the call leaves them. -/
def BallHandleCollision (chk : Vector2 → ℚ → Rectangle → Bool) (ball : Ball) (other : Obj) :
    Bool × Ball × Obj :=
  match other with
  | Obj.brick brick =>
    let r := rectOf brick.position brick.dimensions
    if chk ball.position BALL_RADIUS r then
      (true,
        { ball with velocity := { ball.velocity with y := ball.velocity.y * -1 } },
        Obj.brick { brick with health := (brick.health + UINT_MOD - 1) % UINT_MOD })
    else (false, ball, Obj.brick brick)
  | Obj.paddle paddle =>
    let r := rectOf paddle.position paddle.dimensions
    if chk ball.position BALL_RADIUS r then
      (true,
        { ball with velocity := { ball.velocity with y := ball.velocity.y * -1 } },
        Obj.paddle paddle)
    else (false, ball, Obj.paddle paddle)

/-- The brick a call with tag `BRICK` leaves behind. -/
def Obj.toBrick (o : Obj) (orig : Brick) : Brick :=
  match o with
  | Obj.brick b => b
  | Obj.paddle _ => orig

/-- The paddle a call with tag `PADDLE` leaves behind. -/
def Obj.toPaddle (o : Obj) (orig : Paddle) : Paddle :=
  match o with
  | Obj.paddle p => p
  | Obj.brick _ => orig

/-! ## Game flow -/

/-- The brick scan of `main`: passes still to run, counter `i`, the ball and
the bricks.  `&&` short-circuits: `BallHandleCollision` is called only on a
brick with `health > 0`, and the first call that returns `true` breaks out of
the loop.  Reading outside the allocation is undefined in C; here it ends the
loop. -/
def scanBricks (chk : Vector2 → ℚ → Rectangle → Bool) :
    Nat → Nat → Ball → List Brick → Ball × List Brick
  | 0, _, ball, bricks => (ball, bricks)
  | n + 1, i, ball, bricks =>
    match bricks[i]? with
    | none => (ball, bricks)
    | some b =>
      if b.health > 0 then
        let r := BallHandleCollision chk ball (Obj.brick b)
        if r.1 then (r.2.1, bricks.set i (r.2.2.toBrick b))
        else scanBricks chk n (i + 1) r.2.1 (bricks.set i (r.2.2.toBrick b))
      else scanBricks chk n (i + 1) ball bricks

/-- The variables of `main` that the loop reads and writes. -/
structure Game where
  gamePaused : Bool
  paddle : Paddle
  wall : Wall
  ball : Ball
  deriving DecidableEq

/-- What one pass of the `while` loop reads from the platform:
`WindowShouldClose()` and `IsKeyDown` of the five keys. -/
structure Keys where
  close : Bool
  q : Bool
  p : Bool
  r : Bool
  left : Bool
  right : Bool
  deriving DecidableEq

/-- The state `main` enters its loop with. -/
def Game.start : Game :=
  { gamePaused := true
    paddle := PaddleNew
    wall := WallBuild WALL_HEIGHT WALL_WIDTH
    ball := BallNew }

/-- The `Update` section of the loop body. -/
def update (chk : Vector2 → ℚ → Rectangle → Bool) (right left : Bool) (g : Game) : Game :=
  let paddle := PaddleMove right left g.paddle
  let ball := BallMove g.ball
  let r := BallHandleCollision chk ball (Obj.paddle paddle)
  let paddle := r.2.2.toPaddle paddle
  let ball := r.2.1
  if !r.1 then
    let s := scanBricks chk (WallBrickCount g.wall).toNat 0 ball g.wall.bricks
    { g with paddle := paddle, ball := s.1, wall := { g.wall with bricks := s.2 } }
  else
    { g with paddle := paddle, ball := ball }

/-- One pass of the `while` loop of `main`; `none` when the loop ends. -/
def frame (chk : Vector2 → ℚ → Rectangle → Bool) (k : Keys) (g : Game) : Option Game :=
  if k.close then none
  else if k.q then none
  else
    let g := if k.p then { g with gamePaused := !g.gamePaused } else g
    let g :=
      if k.r then
        { g with paddle := PaddleNew, wall := WallBuild WALL_HEIGHT WALL_WIDTH, ball := BallNew }
      else g
    if !g.ball.active then some g
    else if g.gamePaused then some g
    else some (update chk k.right k.left g)

/-- The variables of `main` once a pass has handled the pause key and the
reset key, before it looks at the ball. -/
def Game.afterControls (k : Keys) (g : Game) : Game :=
  let g := if k.p then { g with gamePaused := !g.gamePaused } else g
  if k.r then
    { g with paddle := PaddleNew, wall := WallBuild WALL_HEIGHT WALL_WIDTH, ball := BallNew }
  else g

/-- The game after a finite sequence of passes, oldest first; `none` once the
loop has ended. -/
def frames (chk : Vector2 → ℚ → Rectangle → Bool) : List Keys → Game → Option Game
  | [], g => some g
  | k :: ks, g =>
    match frame chk k g with
    | none => none
    | some g => frames chk ks g

/-- The raylib test `CheckCollisionCircleRec`, over the rationals. -/
def CheckCollisionCircleRec (center : Vector2) (radius : ℚ) (rec : Rectangle) : Bool :=
  let recCenterX := rec.x + rec.width / 2
  let recCenterY := rec.y + rec.height / 2
  let dx := |center.x - recCenterX|
  let dy := |center.y - recCenterY|
  if dx > rec.width / 2 + radius then false
  else if dy > rec.height / 2 + radius then false
  else if dx ≤ rec.width / 2 then true
  else if dy ≤ rec.height / 2 then true
  else
    decide ((dx - rec.width / 2) * (dx - rec.width / 2)
      + (dy - rec.height / 2) * (dy - rec.height / 2) ≤ radius * radius)

/-- A call that writes the ball: `BallMove(ball)`, or
`BallHandleCollision(ball, other, type)` against a brick or a paddle. -/
inductive BallCall where
  | move
  | collide (other : Obj)

/-- The ball after one call. -/
def BallCall.run (chk : Vector2 → ℚ → Rectangle → Bool) (ball : Ball) : BallCall → Ball
  | BallCall.move => BallMove ball
  | BallCall.collide other => (BallHandleCollision chk ball other).2.1

/-- The ball after a finite sequence of calls, oldest first. -/
def BallCalls (chk : Vector2 → ℚ → Rectangle → Bool) (calls : List BallCall) (ball : Ball) :
    Ball :=
  calls.foldl (BallCall.run chk) ball

/-- The horizontal state of the ball in play: `position.x` is an even number
from 10 to 790, `velocity.x` is 2 or -2, and it points inwards at either
end. -/
def Ball.XInv (ball : Ball) : Prop :=
  ∃ n : Int, ball.position.x = 2 * (n : ℚ) ∧ 5 ≤ n ∧ n ≤ 395
    ∧ (ball.velocity.x = 2 ∨ ball.velocity.x = -2)
    ∧ (n = 395 → ball.velocity.x = -2) ∧ (n = 5 → ball.velocity.x = 2)

/-! ## The layout the specification describes -/

/-- The brick that the row-major layout of the specification puts at index
`i` of a wall `width` bricks wide: column `i mod width`, row `i div width`,
the first row one brick height below the top of the screen, the colour chosen
by the parity of the row.  Written from the specification, to be compared with
what `WallBuild` stores. -/
def rowMajorBrick (width i : Nat) : Brick :=
  { position :=
      ⟨(SCREEN_WIDTH - (width : ℚ) * BRICK_WIDTH) / 2 + ((i % width : Nat) : ℚ) * BRICK_WIDTH,
        BRICK_HEIGHT + ((i / width : Nat) : ℚ) * BRICK_HEIGHT⟩
    dimensions := ⟨BRICK_WIDTH, BRICK_HEIGHT⟩
    color := if (i / width) % 2 = 0 then LIGHTGRAY else GREEN
    health := 1
    type := ObjType.BRICK }

/-- The point `p` lies in the rectangle of brick `b`, the left and top edges
included, the right and bottom edges excluded. -/
def Brick.covers (b : Brick) (p : Vector2) : Prop :=
  b.position.x ≤ p.x ∧ p.x < b.position.x + b.dimensions.x
    ∧ b.position.y ≤ p.y ∧ p.y < b.position.y + b.dimensions.y

instance (b : Brick) (p : Vector2) : Decidable (b.covers p) := by
  unfold Brick.covers; exact inferInstance

/-- Brick `i` of the wall is stored and has `health > 0`. -/
def Wall.isActiveAt (wall : Wall) (i : Nat) : Bool :=
  match wall.bricks[i]? with
  | some b => decide (0 < b.health)
  | none => false

/-- The state of the locals of the `WallBuild` loop on entry to the pass that
writes the brick of row `q`, column `r`. -/
def WallBuild.Inv (startPos : ℚ) (q r : Nat) (even : Bool) (position : Vector2) : Prop :=
  (r = 0 → position.y = BRICK_HEIGHT * q ∧ even = decide (q % 2 = 1))
  ∧ (r ≠ 0 → position.y = BRICK_HEIGHT + BRICK_HEIGHT * q
        ∧ position.x = startPos + BRICK_WIDTH * ((r : ℚ) - 1) ∧ even = decide (q % 2 = 0))

/-! ## Sample inputs -/

/-- A frame in which only the right key is held. -/
def Keys.rightOnly : Keys :=
  { close := false, q := false, p := false, r := false, left := false, right := true }

/-- A running game whose ball, one step above the paddle, will touch after
its next move both the paddle and a brick placed right above the paddle. -/
def Game.paddleAndBrick : Game :=
  { gamePaused := false
    paddle := PaddleNew
    wall :=
      { height := 1
        width := 1
        bricks := [{ position := ⟨400, 400⟩, dimensions := ⟨BRICK_WIDTH, BRICK_HEIGHT⟩,
                     color := GREEN, health := 1, type := ObjType.BRICK }] }
    ball := { active := true, position := ⟨438, 418⟩, velocity := ⟨2, 2⟩, color := GREEN } }

/-- A frame in which no key is held. -/
def Keys.noKey : Keys :=
  { close := false, q := false, p := false, r := false, left := false, right := false }

/-- A running game on a fresh wall whose ball will, after its next move, lie
across the seam of bricks 0 and 1, touching both, far from the paddle. -/
def Game.overBrick0 : Game :=
  { gamePaused := false
    paddle := PaddleNew
    wall := WallBuild WALL_HEIGHT WALL_WIDTH
    ball := { active := true, position := ⟨96, 47⟩, velocity := ⟨2, -2⟩, color := GREEN } }

/-- Brick 0 of `WallBuild(6, 12)`. -/
def Brick.first : Brick :=
  { position := ⟨40, 30⟩, dimensions := ⟨BRICK_WIDTH, BRICK_HEIGHT⟩, color := LIGHTGRAY,
    health := 1, type := ObjType.BRICK }

/-- A frame in which only the pause key is held. -/
def Keys.pOnly : Keys :=
  { close := false, q := false, p := true, r := false, left := false, right := false }

/-- The game of `Game.overBrick0` with brick 0 already destroyed. -/
def Game.overDeadBrick0 : Game :=
  { Game.overBrick0 with
    wall := { Game.overBrick0.wall with
              bricks := Game.overBrick0.wall.bricks.set 0 { Brick.first with health := 0 } } }

/-- A wall of one row and two bricks, the first destroyed. -/
def Wall.oneLeft : Wall :=
  { height := 1
    width := 2
    bricks := [{ rowMajorBrick 2 0 with health := 0 }, rowMajorBrick 2 1] }

/-- An active ball that is about to cross the bottom of the screen. -/
def Ball.falling : Ball :=
  { active := true, position := ⟨300, 449⟩, velocity := ⟨2, 2⟩, color := GREEN }

/-- An active ball that is about to reach the right edge of the screen. -/
def Ball.atRightEdge : Ball :=
  { active := true, position := ⟨789, 100⟩, velocity := ⟨2, 2⟩, color := GREEN }

/-- A ball that lies over the top-left corner of brick 0 of `WallBuild(6, 12)`. -/
def Ball.onBrick0 : Ball :=
  { active := true, position := ⟨45, 35⟩, velocity := ⟨2, -2⟩, color := GREEN }

/-- A frame in which the left and right keys are held, and no other. -/
def Keys.leftRight : Keys :=
  { close := false, q := false, p := false, r := false, left := true, right := true }

/-- A frame in which only the reset key is held. -/
def Keys.rOnly : Keys :=
  { close := false, q := false, p := false, r := true, left := false, right := false }

/-- A frame in which the pause key and the reset key are held. -/
def Keys.pAndR : Keys :=
  { close := false, q := false, p := true, r := true, left := false, right := false }

/-- A running game whose ball has been lost. -/
def Game.over : Game :=
  { gamePaused := false
    paddle := PaddleNew
    wall := WallBuild WALL_HEIGHT WALL_WIDTH
    ball := { active := false, position := ⟨300, 451⟩, velocity := ⟨2, 2⟩, color := GREEN } }

/-! ## Paddle: theorems -/

theorem PaddleMove_right_step (p : Paddle) (h : p.position.x + p.dimensions.x ≤ SCREEN_WIDTH) :
    PaddleMove true false p
      = { p with position := { p.position with x := p.position.x + PADDLE_VELOCITY } } := by
  simp [PaddleMove, h]

theorem PaddleMove_left_step (p : Paddle) (h : 0 ≤ p.position.x) :
    PaddleMove false true p
      = { p with position := { p.position with x := p.position.x - PADDLE_VELOCITY } } := by
  simp [PaddleMove, h]

theorem PaddleMoves_right (n : Nat) : ∀ p : Paddle,
    p.position.x + PADDLE_VELOCITY * n + p.dimensions.x ≤ SCREEN_WIDTH + PADDLE_VELOCITY →
    PaddleMoves (List.replicate n (true, false)) p
      = { p with position := { p.position with x := p.position.x + PADDLE_VELOCITY * n } } := by
  induction n with
  | zero => intro p _; simp [PaddleMoves]
  | succ n ih =>
    intro p h
    have hv : (0:ℚ) ≤ PADDLE_VELOCITY * n := by
      simp only [PADDLE_VELOCITY]; positivity
    have h1 : p.position.x + p.dimensions.x ≤ SCREEN_WIDTH := by
      push_cast at h; simp only [PADDLE_VELOCITY] at h hv ⊢; linarith
    have := ih (PaddleMove true false p) (by
      rw [PaddleMove_right_step p h1]; push_cast at h; simp only [PADDLE_VELOCITY] at h ⊢
      linarith)
    simp only [PaddleMoves, List.replicate_succ, List.foldl_cons] at this ⊢
    rw [this, PaddleMove_right_step p h1]
    simp only [Paddle.mk.injEq, Vector2.mk.injEq, and_true, true_and]
    push_cast; ring

theorem PaddleMoves_left (n : Nat) : ∀ p : Paddle,
    0 ≤ p.position.x - PADDLE_VELOCITY * n + PADDLE_VELOCITY →
    PaddleMoves (List.replicate n (false, true)) p
      = { p with position := { p.position with x := p.position.x - PADDLE_VELOCITY * n } } := by
  induction n with
  | zero => intro p _; simp [PaddleMoves]
  | succ n ih =>
    intro p h
    have hv : (0:ℚ) ≤ PADDLE_VELOCITY * n := by
      simp only [PADDLE_VELOCITY]; positivity
    have h1 : 0 ≤ p.position.x := by
      push_cast at h; simp only [PADDLE_VELOCITY] at h hv ⊢; linarith
    have := ih (PaddleMove false true p) (by
      rw [PaddleMove_left_step p h1]; push_cast at h; simp only [PADDLE_VELOCITY] at h ⊢
      linarith)
    simp only [PaddleMoves, List.replicate_succ, List.foldl_cons] at this ⊢
    rw [this, PaddleMove_left_step p h1]
    simp only [Paddle.mk.injEq, Vector2.mk.injEq, and_true, true_and]
    push_cast; ring

/-- C1, evaluated on the code: holding the right key for 81 calls of
`PaddleMove` from `PaddleNew()` puts the paddle at x = 724, where
`position.x + width = 804` exceeds `SCREEN_WIDTH`; holding the left key for
101 calls puts it at x = -4, below 0. -/
theorem PaddleMove_leaves_screen :
    (PaddleMoves (List.replicate 81 (true, false)) PaddleNew).position.x = 724
    ∧ ¬ ((PaddleMoves (List.replicate 81 (true, false)) PaddleNew).position.x
          + (PaddleMoves (List.replicate 81 (true, false)) PaddleNew).dimensions.x ≤ SCREEN_WIDTH)
    ∧ (PaddleMoves (List.replicate 101 (false, true)) PaddleNew).position.x = -4
    ∧ ¬ (0 ≤ (PaddleMoves (List.replicate 101 (false, true)) PaddleNew).position.x) := by
  rw [PaddleMoves_right 81 PaddleNew
        (by norm_num [PaddleNew, SCREEN_WIDTH, PADDLE_VELOCITY, PADDLE_WIDTH]),
      PaddleMoves_left 101 PaddleNew (by norm_num [PaddleNew, SCREEN_WIDTH, PADDLE_VELOCITY])]
  norm_num [PaddleNew, SCREEN_WIDTH, PADDLE_VELOCITY, PADDLE_WIDTH]

/-! ## The frame -/

theorem frame_playing (chk : Vector2 → ℚ → Rectangle → Bool) (k : Keys) (g : Game)
    (hclose : k.close = false) (hq : k.q = false) (hr : k.r = false)
    (hactive : g.ball.active = true)
    (hplaying : (if k.p then !g.gamePaused else g.gamePaused) = false) :
    frame chk k g = some (update chk k.right k.left { g with gamePaused := false }) := by
  unfold frame
  cases hp : k.p <;> simp [hp] at hplaying <;> simp [hclose, hq, hr, hactive, hp, hplaying]
  · cases g; simp_all

theorem update_paddle_hit (chk : Vector2 → ℚ → Rectangle → Bool) (right left : Bool) (g : Game)
    (hit : chk (BallMove g.ball).position BALL_RADIUS
        (rectOf (PaddleMove right left g.paddle).position
          (PaddleMove right left g.paddle).dimensions) = true) :
    update chk right left g
      = { g with
          paddle := PaddleMove right left g.paddle
          ball := { BallMove g.ball with
                    velocity := { (BallMove g.ball).velocity with
                                  y := (BallMove g.ball).velocity.y * -1 } } } := by
  simp [update, BallHandleCollision, hit, Obj.toPaddle]

/-- C2: in a Playing frame (loop not left, no reset, ball active, not paused
once the pause key is applied), when the ball after `PaddleMove` and
`BallMove` intersects the paddle, the frame returns a state whose wall is the
wall it started with, so no brick's health changes whatever the ball
intersects, and whose ball has the y-velocity of the moved ball negated once,
with the moved ball's position and x-velocity. -/
theorem collision_precedence (chk : Vector2 → ℚ → Rectangle → Bool) (k : Keys) (g : Game)
    (hclose : k.close = false) (hq : k.q = false) (hr : k.r = false)
    (hactive : g.ball.active = true)
    (hplaying : (if k.p then !g.gamePaused else g.gamePaused) = false)
    (hpaddle : chk (BallMove g.ball).position BALL_RADIUS
        (rectOf (PaddleMove k.right k.left g.paddle).position
          (PaddleMove k.right k.left g.paddle).dimensions) = true) :
    ∃ g', frame chk k g = some g'
      ∧ g'.wall = g.wall
      ∧ g'.ball.velocity.y = -(BallMove g.ball).velocity.y
      ∧ g'.ball.velocity.x = (BallMove g.ball).velocity.x
      ∧ g'.ball.position = (BallMove g.ball).position
      ∧ g'.ball.active = (BallMove g.ball).active := by
  refine ⟨_, frame_playing chk k g hclose hq hr hactive hplaying, ?_⟩
  rw [update_paddle_hit chk k.right k.left { g with gamePaused := false } hpaddle]
  simp

/-- C2 at a sample frame: the ball touches the paddle and a brick at once, and
the brick keeps its health. -/
theorem collision_precedence_witness :
    ∃ g', frame CheckCollisionCircleRec Keys.rightOnly Game.paddleAndBrick = some g'
      ∧ g'.wall = Game.paddleAndBrick.wall
      ∧ g'.ball.velocity.y = -(BallMove Game.paddleAndBrick.ball).velocity.y
      ∧ g'.ball.velocity.x = (BallMove Game.paddleAndBrick.ball).velocity.x
      ∧ g'.ball.position = (BallMove Game.paddleAndBrick.ball).position
      ∧ g'.ball.active = (BallMove Game.paddleAndBrick.ball).active :=
  collision_precedence CheckCollisionCircleRec Keys.rightOnly Game.paddleAndBrick
    rfl rfl rfl rfl rfl
    (by
      norm_num [Game.paddleAndBrick, Keys.rightOnly, BallMove, PaddleMove, PaddleNew, rectOf,
        CheckCollisionCircleRec, SCREEN_WIDTH, SCREEN_HEIGHT, PADDLE_HEIGHT, PADDLE_WIDTH,
        PADDLE_VELOCITY, BALL_RADIUS])

/-! ## The brick scan -/

theorem List.set_of_getElem? {α : Type} (l : List α) (i : Nat) (a : α) (h : l[i]? = some a) :
    l.set i a = l := by
  apply List.ext_getElem?
  intro j
  rw [List.getElem?_set]
  by_cases hij : i = j
  · subst hij
    have hlt : i < l.length := by
      rcases List.getElem?_eq_some.mp h with ⟨hlt, _⟩
      exact hlt
    simp [hlt, h]
  · simp [hij]

/-- A pass of the scan over a brick that is destroyed or that the ball does
not intersect changes nothing and moves on. -/
theorem scanBricks_skip (chk : Vector2 → ℚ → Rectangle → Bool) (n i : Nat) (ball : Ball)
    (bricks : List Brick) (b : Brick) (hb : bricks[i]? = some b)
    (hno : 0 < b.health → chk ball.position BALL_RADIUS (rectOf b.position b.dimensions) = false) :
    scanBricks chk (n + 1) i ball bricks = scanBricks chk n (i + 1) ball bricks := by
  rw [scanBricks]
  simp only [hb]
  by_cases hh : 0 < b.health
  · have hc := hno hh
    simp [hh, BallHandleCollision, hc, Obj.toBrick, List.set_of_getElem? bricks i b hb]
  · simp [hh]

/-- A pass of the scan over a live brick that the ball intersects resolves the
collision and ends the scan. -/
theorem scanBricks_hit (chk : Vector2 → ℚ → Rectangle → Bool) (n i : Nat) (ball : Ball)
    (bricks : List Brick) (b : Brick) (hb : bricks[i]? = some b) (hh : 0 < b.health)
    (hc : chk ball.position BALL_RADIUS (rectOf b.position b.dimensions) = true) :
    scanBricks chk (n + 1) i ball bricks
      = ({ ball with velocity := { ball.velocity with y := ball.velocity.y * -1 } },
          bricks.set i { b with health := (b.health + UINT_MOD - 1) % UINT_MOD }) := by
  rw [scanBricks]
  simp [hb, hh, BallHandleCollision, hc, Obj.toBrick]

/-- The scan from counter `i` resolves the collision with the first live brick
the ball intersects, at index `j`, when `j` is within the passes to run. -/
theorem scanBricks_first (chk : Vector2 → ℚ → Rectangle → Bool) (ball : Ball)
    (bricks : List Brick) (j : Nat) (b : Brick) (hb : bricks[j]? = some b) (hh : 0 < b.health)
    (hc : chk ball.position BALL_RADIUS (rectOf b.position b.dimensions) = true) :
    ∀ (n i : Nat), i ≤ j → j < i + n →
      (∀ (m : Nat) (c : Brick), i ≤ m → m < j → bricks[m]? = some c → 0 < c.health →
        chk ball.position BALL_RADIUS (rectOf c.position c.dimensions) = false) →
      scanBricks chk n i ball bricks
        = ({ ball with velocity := { ball.velocity with y := ball.velocity.y * -1 } },
            bricks.set j { b with health := (b.health + UINT_MOD - 1) % UINT_MOD }) := by
  intro n
  induction n with
  | zero => intro i hij hjn; omega
  | succ n ih =>
    intro i hij hjn hfirst
    rcases Nat.eq_or_lt_of_le hij with heq | hlt
    · subst heq
      exact scanBricks_hit chk n i ball bricks b hb hh hc
    · have hlen : i < bricks.length := by
        rcases List.getElem?_eq_some.mp hb with ⟨hj, _⟩
        omega
      have hi : bricks[i]? = some bricks[i] := List.getElem?_eq_getElem hlen
      rw [scanBricks_skip chk n i ball bricks bricks[i] hi
            (fun h0 => hfirst i bricks[i] (Nat.le_refl i) hlt hi h0)]
      exact ih (i + 1) hlt (by omega)
        (fun m c him hmj hm hc0 => hfirst m c (by omega) hmj hm hc0)

/-- The scan changes nothing when no live brick intersects the ball. -/
theorem scanBricks_none (chk : Vector2 → ℚ → Rectangle → Bool) (ball : Ball)
    (bricks : List Brick)
    (hno : ∀ (m : Nat) (c : Brick), bricks[m]? = some c → 0 < c.health →
        chk ball.position BALL_RADIUS (rectOf c.position c.dimensions) = false) :
    ∀ (n i : Nat), scanBricks chk n i ball bricks = (ball, bricks) := by
  intro n
  induction n with
  | zero => intro i; rw [scanBricks]
  | succ n ih =>
    intro i
    cases hi : bricks[i]? with
    | none => rw [scanBricks]; simp [hi]
    | some c =>
      rw [scanBricks_skip chk n i ball bricks c hi (fun h0 => hno i c hi h0)]
      exact ih (i + 1)

/-! ## Wall: counting and building -/

theorem toInt32_of_le (n : Nat) (h : n ≤ INT_MAX) : toInt32 n = (n : Int) := by
  have hlt : n < UINT_MOD := by simp only [INT_MAX, UINT_MOD] at h ⊢; omega
  simp [toInt32, Nat.mod_eq_of_lt hlt, h]

theorem WallBrickCount_of_le (wall : Wall) (h : wall.height * wall.width ≤ INT_MAX) :
    WallBrickCount wall = ((wall.height * wall.width : Nat) : Int) := by
  have hlt : wall.height * wall.width < UINT_MOD := by
    simp only [INT_MAX, UINT_MOD] at h ⊢; omega
  rw [WallBrickCount, Nat.mod_eq_of_lt hlt, toInt32_of_le _ h]

theorem WallBuild_loop_length (width : Nat) (startPos : ℚ) :
    ∀ (n i : Nat) (even : Bool) (position : Vector2),
      (WallBuild.loop width startPos n i even position).length = n := by
  intro n
  induction n with
  | zero => intro i even position; simp [WallBuild.loop]
  | succ n ih => intro i even position; simp [WallBuild.loop, ih]

theorem WallBuild_loop_health (width : Nat) (startPos : ℚ) :
    ∀ (n i : Nat) (even : Bool) (position : Vector2),
      ∀ b ∈ WallBuild.loop width startPos n i even position, b.health = 1 := by
  intro n
  induction n with
  | zero => intro i even position b hb; simp [WallBuild.loop] at hb
  | succ n ih =>
    intro i even position b hb
    rw [WallBuild.loop] at hb
    rcases List.mem_cons.mp hb with h | h
    · subst h
      split_ifs <;> rfl
    · exact ih _ _ _ b h

theorem WallBuild_bricks_length (h w : Nat) (hle : h * w ≤ INT_MAX) :
    (WallBuild h w).bricks.length = h * w := by
  have hlt : w * h < UINT_MOD := by
    simp only [INT_MAX, UINT_MOD] at hle ⊢; rw [Nat.mul_comm]; omega
  simp only [WallBuild, WallBuild_loop_length]
  rw [Nat.mod_eq_of_lt hlt, Nat.mul_comm]

theorem WallBuild_bricks_health (h w : Nat) : ∀ b ∈ (WallBuild h w).bricks, b.health = 1 :=
  WallBuild_loop_health _ _ _ _ _ _

theorem WallBuild_WF (h w : Nat) (hle : h * w ≤ INT_MAX) : (WallBuild h w).WF := by
  refine ⟨hle, WallBuild_bricks_length h w hle, ?_⟩
  intro b hb
  rw [WallBuild_bricks_health h w b hb]
  simp [UINT_MOD]

theorem WallBuild_loop_getElem? (width : Nat) :
    ∀ (n q r : Nat) (even : Bool) (position : Vector2), r < width →
      WallBuild.Inv ((SCREEN_WIDTH - (width : ℚ) * BRICK_WIDTH) / 2) q r even position →
      ∀ m, m < n →
        (WallBuild.loop width ((SCREEN_WIDTH - (width : ℚ) * BRICK_WIDTH) / 2) n
            (q * width + r) even position)[m]?
          = some (rowMajorBrick width (q * width + r + m)) := by
  intro n
  induction n with
  | zero => intro q r even position _ _ m hm; omega
  | succ n ih =>
    intro q r even position hr hinv m hm
    have hmod : (q * width + r) % width = r := Nat.mul_add_mod_of_lt hr
    have hdiv : (q * width + r) / width = q := by
      rw [Nat.add_comm, Nat.add_mul_div_right _ _ (by omega), Nat.div_eq_of_lt hr, Nat.zero_add]
    rw [WallBuild.loop]
    cases m with
    | zero =>
      simp only [List.getElem?_cons_zero, Nat.add_zero, rowMajorBrick, hmod, hdiv]
      by_cases hr0 : r = 0
      · obtain ⟨hy, he⟩ := hinv.1 hr0
        subst hr0
        by_cases hq : q % 2 = 0
        · have : ¬ q % 2 = 1 := by omega
          simp [hy, he, hq, this]; ring
        · have : q % 2 = 1 := by omega
          simp [hy, he, hq, this]; ring
      · obtain ⟨hy, hx, he⟩ := hinv.2 hr0
        by_cases hq : q % 2 = 0
        · simp [hr0, hy, hx, he, hq]; constructor <;> ring
        · simp [hr0, hy, hx, he, hq]; constructor <;> ring
    | succ m =>
      simp only [List.getElem?_cons_succ, hmod]
      by_cases hlast : r + 1 < width
      · have hidx : q * width + r + 1 = q * width + (r + 1) := by ring
        have hidx' : q * width + r + (m + 1) = q * width + (r + 1) + m := by ring
        rw [hidx, hidx']
        refine ih q (r + 1) _ _ hlast ?_ m (by omega)
        refine ⟨fun h => absurd h (Nat.succ_ne_zero r), fun _ => ?_⟩
        by_cases hr0 : r = 0
        · obtain ⟨hy, he⟩ := hinv.1 hr0
          subst hr0
          by_cases hq : q % 2 = 0
          · have : ¬ q % 2 = 1 := by omega
            simp [hy, he, hq, this]; ring
          · have : q % 2 = 1 := by omega
            simp [hy, he, hq, this]; ring
        · obtain ⟨hy, hx, he⟩ := hinv.2 hr0
          simp [hr0, hy, hx, he]; ring
      · have hw : width = r + 1 := by omega
        have hidx : q * width + r + 1 = (q + 1) * width + 0 := by rw [hw]; ring
        have hidx' : q * width + r + (m + 1) = (q + 1) * width + 0 + m := by rw [hw]; ring
        rw [hidx, hidx']
        refine ih (q + 1) 0 _ _ (by omega) ?_ m (by omega)
        refine ⟨fun _ => ?_, fun h => absurd rfl h⟩
        by_cases hr0 : r = 0
        · obtain ⟨hy, he⟩ := hinv.1 hr0
          subst hr0
          by_cases hq : q % 2 = 0
          · have h1 : ¬ q % 2 = 1 := by omega
            have h2 : (q + 1) % 2 = 1 := by omega
            simp [hy, he, hq, h1, h2]; ring
          · have h1 : q % 2 = 1 := by omega
            have h2 : ¬ (q + 1) % 2 = 1 := by omega
            simp [hy, he, hq, h1, h2]; ring
        · obtain ⟨hy, hx, he⟩ := hinv.2 hr0
          by_cases hq : q % 2 = 0
          · have h2 : (q + 1) % 2 = 1 := by omega
            simp [hr0, hy, hx, he, hq, h2]; ring
          · have h2 : ¬ (q + 1) % 2 = 1 := by omega
            simp [hr0, hy, hx, he, hq, h2]; ring

/-- Every brick `WallBuild` stores is the brick of the row-major layout. -/
theorem WallBuild_bricks_getElem? (h w i : Nat) (hle : h * w ≤ INT_MAX) (hi : i < h * w) :
    (WallBuild h w).bricks[i]? = some (rowMajorBrick w i) := by
  have hlt : w * h < UINT_MOD := by
    simp only [INT_MAX, UINT_MOD] at hle ⊢; rw [Nat.mul_comm]; omega
  have hw : 0 < w := by
    rcases Nat.eq_zero_or_pos w with h0 | h0
    · subst h0; simp at hi
    · exact h0
  have := WallBuild_loop_getElem? w (w * h) 0 0 false
    ⟨(SCREEN_WIDTH - (w : ℚ) * BRICK_WIDTH) / 2, 0⟩ hw
    ⟨fun _ => by simp, fun h => absurd rfl h⟩ i (by rw [Nat.mul_comm]; exact hi)
  simp only [Nat.zero_mul, Nat.zero_add] at this
  simp only [WallBuild, Nat.mod_eq_of_lt hlt]
  exact this

theorem update_paddle_miss (chk : Vector2 → ℚ → Rectangle → Bool) (right left : Bool) (g : Game)
    (hmiss : chk (BallMove g.ball).position BALL_RADIUS
        (rectOf (PaddleMove right left g.paddle).position
          (PaddleMove right left g.paddle).dimensions) = false) :
    update chk right left g
      = { g with
          paddle := PaddleMove right left g.paddle
          ball := (scanBricks chk (WallBrickCount g.wall).toNat 0 (BallMove g.ball)
                    g.wall.bricks).1
          wall := { g.wall with
                    bricks := (scanBricks chk (WallBrickCount g.wall).toNat 0 (BallMove g.ball)
                      g.wall.bricks).2 } } := by
  simp [update, BallHandleCollision, hmiss, Obj.toPaddle]

/-- C3: in a Playing frame in which the moved ball misses the paddle and
intersects some live brick (index `i₀`), the frame returns a state in which
exactly one brick differs: the brick at the lowest index `j` that is live and
intersects the ball, whose health is one less; every other brick and the wall
dimensions are as before, and the ball has the y-velocity of the moved ball
negated once.  On the wall `WallBuild(6, 12)` with the ball over brick 0 the
brick hit is brick 0, left with health 0, and brick 1 is untouched. -/
theorem first_hit_wins (chk : Vector2 → ℚ → Rectangle → Bool) (k : Keys) (g : Game)
    (hclose : k.close = false) (hq : k.q = false) (hr : k.r = false)
    (hactive : g.ball.active = true)
    (hplaying : (if k.p then !g.gamePaused else g.gamePaused) = false)
    (hwf : g.wall.WF)
    (hmiss : chk (BallMove g.ball).position BALL_RADIUS
        (rectOf (PaddleMove k.right k.left g.paddle).position
          (PaddleMove k.right k.left g.paddle).dimensions) = false)
    (i₀ : Nat) (b₀ : Brick) (hb₀ : g.wall.bricks[i₀]? = some b₀) (hh₀ : 0 < b₀.health)
    (hc₀ : chk (BallMove g.ball).position BALL_RADIUS (rectOf b₀.position b₀.dimensions) = true) :
    ∃ (g' : Game) (j : Nat) (b : Brick),
      frame chk k g = some g'
      ∧ j ≤ i₀ ∧ g.wall.bricks[j]? = some b ∧ 0 < b.health
      ∧ chk (BallMove g.ball).position BALL_RADIUS (rectOf b.position b.dimensions) = true
      ∧ (∀ (m : Nat) (c : Brick), m < j → g.wall.bricks[m]? = some c → 0 < c.health →
          chk (BallMove g.ball).position BALL_RADIUS (rectOf c.position c.dimensions) = false)
      ∧ g'.wall.bricks[j]? = some { b with health := b.health - 1 }
      ∧ (∀ m : Nat, m ≠ j → g'.wall.bricks[m]? = g.wall.bricks[m]?)
      ∧ g'.wall.bricks.length = g.wall.bricks.length
      ∧ g'.wall.height = g.wall.height ∧ g'.wall.width = g.wall.width
      ∧ g'.ball.velocity.y = -(BallMove g.ball).velocity.y
      ∧ g'.ball.velocity.x = (BallMove g.ball).velocity.x
      ∧ g'.ball.position = (BallMove g.ball).position
      ∧ (g.wall = WallBuild WALL_HEIGHT WALL_WIDTH → i₀ = 0 →
          j = 0 ∧ (g'.wall.bricks[0]?).map Brick.health = some 0
            ∧ g'.wall.bricks[1]? = (WallBuild WALL_HEIGHT WALL_WIDTH).bricks[1]?) := by
  classical
  -- the lowest index of a live brick that the moved ball intersects
  have hex : ∃ m : Nat, ∃ c : Brick, g.wall.bricks[m]? = some c ∧ 0 < c.health
      ∧ chk (BallMove g.ball).position BALL_RADIUS (rectOf c.position c.dimensions) = true :=
    ⟨i₀, b₀, hb₀, hh₀, hc₀⟩
  obtain ⟨b, hb, hh, hc⟩ := Nat.find_spec hex
  have hle : Nat.find hex ≤ i₀ := Nat.find_min' hex ⟨b₀, hb₀, hh₀, hc₀⟩
  have hfirst : ∀ (m : Nat) (c : Brick), m < Nat.find hex → g.wall.bricks[m]? = some c →
      0 < c.health →
      chk (BallMove g.ball).position BALL_RADIUS (rectOf c.position c.dimensions) = false := by
    intro m c hm hmc hch
    have := Nat.find_min hex hm
    by_contra hne
    exact this ⟨c, hmc, hch, by simpa using hne⟩
  generalize Nat.find hex = j at hb hle hfirst
  obtain ⟨hcount, hlen, hhealth⟩ := hwf
  have hjlen : j < g.wall.bricks.length := by
    rcases List.getElem?_eq_some.mp hb with ⟨hj, _⟩
    exact hj
  have hbmem : b ∈ g.wall.bricks := List.mem_iff_getElem?.mpr ⟨j, hb⟩
  have hdec : (b.health + UINT_MOD - 1) % UINT_MOD = b.health - 1 := by
    have := hhealth b hbmem
    simp only [UINT_MOD] at this ⊢
    omega
  have hscan := scanBricks_first chk (BallMove g.ball) g.wall.bricks j b hb hh hc
    (WallBrickCount g.wall).toNat 0 (Nat.zero_le j)
    (by rw [WallBrickCount_of_le g.wall hcount]; simp only [Int.toNat_ofNat]; omega)
    (fun m c _ hmj hmc hch => hfirst m c hmj hmc hch)
  rw [hdec] at hscan
  refine ⟨_, j, b, frame_playing chk k g hclose hq hr hactive hplaying, hle, hb, hh, hc, hfirst,
    ?_⟩
  rw [update_paddle_miss chk k.right k.left { g with gamePaused := false } hmiss]
  rw [hscan]
  refine ⟨List.getElem?_set_self hjlen, fun m hm => List.getElem?_set_ne (Ne.symm hm),
    List.length_set _ _ _, rfl, rfl, by simp, rfl, rfl, ?_⟩
  intro hw h0
  subst h0
  have hj0 : j = 0 := Nat.le_zero.mp hle
  subst hj0
  have hb1 : b.health = 1 := by
    rw [hw] at hbmem
    exact WallBuild_bricks_health _ _ b hbmem
  refine ⟨rfl, ?_, ?_⟩
  · rw [List.getElem?_set_self hjlen]
    simp [hb1]
  · rw [List.getElem?_set_ne (by decide), hw]

/-- C3 at a sample frame: on the fresh wall the moved ball lies across bricks
0 and 1; brick 0 is destroyed and brick 1 keeps its health. -/
theorem first_hit_wins_witness :
    ∃ (g' : Game) (j : Nat) (b : Brick),
      frame CheckCollisionCircleRec Keys.noKey Game.overBrick0 = some g'
      ∧ j ≤ 0 ∧ Game.overBrick0.wall.bricks[j]? = some b ∧ 0 < b.health
      ∧ CheckCollisionCircleRec (BallMove Game.overBrick0.ball).position BALL_RADIUS
          (rectOf b.position b.dimensions) = true
      ∧ (∀ (m : Nat) (c : Brick), m < j → Game.overBrick0.wall.bricks[m]? = some c →
          0 < c.health →
          CheckCollisionCircleRec (BallMove Game.overBrick0.ball).position BALL_RADIUS
            (rectOf c.position c.dimensions) = false)
      ∧ g'.wall.bricks[j]? = some { b with health := b.health - 1 }
      ∧ (∀ m : Nat, m ≠ j → g'.wall.bricks[m]? = Game.overBrick0.wall.bricks[m]?)
      ∧ g'.wall.bricks.length = Game.overBrick0.wall.bricks.length
      ∧ g'.wall.height = Game.overBrick0.wall.height
      ∧ g'.wall.width = Game.overBrick0.wall.width
      ∧ g'.ball.velocity.y = -(BallMove Game.overBrick0.ball).velocity.y
      ∧ g'.ball.velocity.x = (BallMove Game.overBrick0.ball).velocity.x
      ∧ g'.ball.position = (BallMove Game.overBrick0.ball).position
      ∧ (Game.overBrick0.wall = WallBuild WALL_HEIGHT WALL_WIDTH → 0 = 0 →
          j = 0 ∧ (g'.wall.bricks[0]?).map Brick.health = some 0
            ∧ g'.wall.bricks[1]? = (WallBuild WALL_HEIGHT WALL_WIDTH).bricks[1]?) :=
  first_hit_wins CheckCollisionCircleRec Keys.noKey Game.overBrick0 rfl rfl rfl rfl rfl
    (WallBuild_WF WALL_HEIGHT WALL_WIDTH (by norm_num [WALL_HEIGHT, WALL_WIDTH, INT_MAX]))
    (by
      norm_num [Game.overBrick0, Keys.noKey, BallMove, PaddleMove, PaddleNew, rectOf,
        CheckCollisionCircleRec, SCREEN_WIDTH, SCREEN_HEIGHT, PADDLE_HEIGHT, PADDLE_WIDTH,
        PADDLE_VELOCITY, BALL_RADIUS])
    0 Brick.first
    (by
      rw [show Game.overBrick0.wall = WallBuild 6 12 from rfl,
        WallBuild_bricks_getElem? 6 12 0 (by norm_num [INT_MAX]) (by norm_num)]
      norm_num [rowMajorBrick, Brick.first, SCREEN_WIDTH, BRICK_WIDTH, BRICK_HEIGHT])
    (by norm_num [Brick.first])
    (by
      norm_num [Game.overBrick0, Brick.first, BallMove, rectOf, CheckCollisionCircleRec,
        SCREEN_WIDTH, SCREEN_HEIGHT, BRICK_WIDTH, BRICK_HEIGHT, BALL_RADIUS])

/-! ## Brick health -/

theorem frame_eq (chk : Vector2 → ℚ → Rectangle → Bool) (k : Keys) (g : Game) :
    frame chk k g
      = if k.close then none
        else if k.q then none
        else if !(g.afterControls k).ball.active then some (g.afterControls k)
        else if (g.afterControls k).gamePaused then some (g.afterControls k)
        else some (update chk k.right k.left (g.afterControls k)) := rfl

/-- A frame that returns a state returns the state left by the control keys,
or the update of it. -/
theorem frame_some (chk : Vector2 → ℚ → Rectangle → Bool) (k : Keys) (g g' : Game)
    (hf : frame chk k g = some g') :
    g' = g.afterControls k ∨ g' = update chk k.right k.left (g.afterControls k) := by
  rw [frame_eq] at hf
  split_ifs at hf <;> simp only [Option.some.injEq, reduceCtorEq] at hf
  · exact Or.inl hf.symm
  · exact Or.inl hf.symm
  · exact Or.inr hf.symm

theorem afterControls_no_reset (k : Keys) (g : Game) (hr : k.r = false) :
    (g.afterControls k).wall = g.wall ∧ (g.afterControls k).ball = g.ball
      ∧ (g.afterControls k).paddle = g.paddle := by
  unfold Game.afterControls
  cases hp : k.p <;> simp [hr]

theorem afterControls_reset (k : Keys) (g : Game) (hr : k.r = true) :
    (g.afterControls k).wall = WallBuild WALL_HEIGHT WALL_WIDTH
      ∧ (g.afterControls k).ball = BallNew ∧ (g.afterControls k).paddle = PaddleNew := by
  unfold Game.afterControls
  cases hp : k.p <;> simp [hr]

/-- What the update does to the bricks: nothing, or the brick scan on the
moved ball. -/
theorem update_bricks (chk : Vector2 → ℚ → Rectangle → Bool) (right left : Bool) (g : Game) :
    (update chk right left g).wall.bricks = g.wall.bricks
      ∨ (update chk right left g).wall.bricks
          = (scanBricks chk (WallBrickCount g.wall).toNat 0 (BallMove g.ball) g.wall.bricks).2 := by
  cases hc : chk (BallMove g.ball).position BALL_RADIUS
      (rectOf (PaddleMove right left g.paddle).position (PaddleMove right left g.paddle).dimensions)
  · right; rw [update_paddle_miss chk right left g hc]
  · left; rw [update_paddle_hit chk right left g hc]

/-- What a frame without reset does to the bricks: nothing, or the brick scan
on the moved ball. -/
theorem frame_bricks (chk : Vector2 → ℚ → Rectangle → Bool) (k : Keys) (g g' : Game)
    (hr : k.r = false) (hf : frame chk k g = some g') :
    g'.wall.bricks = g.wall.bricks
      ∨ g'.wall.bricks
          = (scanBricks chk (WallBrickCount g.wall).toNat 0 (BallMove g.ball) g.wall.bricks).2 := by
  obtain ⟨hw, hb, _⟩ := afterControls_no_reset k g hr
  rcases frame_some chk k g g' hf with h | h
  · left; rw [h, hw]
  · have := update_bricks chk k.right k.left (g.afterControls k)
    rw [hw, hb] at this
    rw [h]; exact this

theorem scanBricks_health_le (chk : Vector2 → ℚ → Rectangle → Bool) :
    ∀ (n i : Nat) (ball : Ball) (bricks : List Brick),
      (∀ b ∈ bricks, b.health ≤ 1) → ∀ b ∈ (scanBricks chk n i ball bricks).2, b.health ≤ 1 := by
  intro n
  induction n with
  | zero => intro i ball bricks h; rw [scanBricks]; exact h
  | succ n ih =>
    intro i ball bricks h
    cases hi : bricks[i]? with
    | none => rw [scanBricks]; simpa [hi] using h
    | some c =>
      by_cases hit : 0 < c.health
          ∧ chk ball.position BALL_RADIUS (rectOf c.position c.dimensions) = true
      · rw [scanBricks_hit chk n i ball bricks c hi hit.1 hit.2]
        intro b hb
        rcases List.mem_or_eq_of_mem_set hb with hb | hb
        · exact h b hb
        · have hc := h c (List.mem_iff_getElem?.mpr ⟨i, hi⟩)
          subst hb
          simp only [UINT_MOD]
          omega
      · rw [scanBricks_skip chk n i ball bricks c hi (fun h0 => by
          by_contra hne; exact hit ⟨h0, by simpa using hne⟩)]
        exact ih (i + 1) ball bricks h

theorem scanBricks_dead (chk : Vector2 → ℚ → Rectangle → Bool) (j : Nat) (b : Brick)
    (hb0 : b.health = 0) :
    ∀ (n i : Nat) (ball : Ball) (bricks : List Brick), bricks[j]? = some b →
      (scanBricks chk n i ball bricks).2[j]? = some b := by
  intro n
  induction n with
  | zero => intro i ball bricks h; rw [scanBricks]; exact h
  | succ n ih =>
    intro i ball bricks h
    cases hi : bricks[i]? with
    | none => rw [scanBricks]; simpa [hi] using h
    | some c =>
      by_cases hit : 0 < c.health
          ∧ chk ball.position BALL_RADIUS (rectOf c.position c.dimensions) = true
      · rw [scanBricks_hit chk n i ball bricks c hi hit.1 hit.2]
        have hij : i ≠ j := by
          intro hij
          subst hij
          rw [hi] at h
          cases h
          omega
        simp only []
        rw [List.getElem?_set_ne hij]
        exact h
      · rw [scanBricks_skip chk n i ball bricks c hi (fun h0 => by
          by_contra hne; exact hit ⟨h0, by simpa using hne⟩)]
        exact ih (i + 1) ball bricks h

theorem frame_health_le (chk : Vector2 → ℚ → Rectangle → Bool) (k : Keys) (g g' : Game)
    (hf : frame chk k g = some g') (h : ∀ b ∈ g.wall.bricks, b.health ≤ 1) :
    ∀ b ∈ g'.wall.bricks, b.health ≤ 1 := by
  cases hr : k.r with
  | false =>
    rcases frame_bricks chk k g g' hr hf with he | he <;> rw [he]
    · exact h
    · exact scanBricks_health_le chk _ _ _ _ h
  | true =>
    have hnew : ∀ b ∈ (WallBuild WALL_HEIGHT WALL_WIDTH).bricks, b.health ≤ 1 :=
      fun b hb => le_of_eq (WallBuild_bricks_health _ _ b hb)
    obtain ⟨hw, _, _⟩ := afterControls_reset k g hr
    rcases frame_some chk k g g' hf with h | h
    · rw [h, hw]; exact hnew
    · rcases update_bricks chk k.right k.left (g.afterControls k) with he | he <;>
        rw [h, he, hw]
      · exact hnew
      · exact scanBricks_health_le chk _ _ _ _ hnew

theorem frames_health_le (chk : Vector2 → ℚ → Rectangle → Bool) :
    ∀ (ks : List Keys) (g g' : Game), frames chk ks g = some g' →
      (∀ b ∈ g.wall.bricks, b.health ≤ 1) → ∀ b ∈ g'.wall.bricks, b.health ≤ 1 := by
  intro ks
  induction ks with
  | nil => intro g g' hf h; simp only [frames, Option.some.injEq] at hf; subst hf; exact h
  | cons k ks ih =>
    intro g g' hf h
    rw [frames] at hf
    cases hk : frame chk k g with
    | none => simp [hk] at hf
    | some g1 =>
      simp only [hk] at hf
      exact ih g1 g' hf (frame_health_le chk k g g1 hk h)

theorem scanBricks_length (chk : Vector2 → ℚ → Rectangle → Bool) :
    ∀ (n i : Nat) (ball : Ball) (bricks : List Brick),
      (scanBricks chk n i ball bricks).2.length = bricks.length := by
  intro n
  induction n with
  | zero => intro i ball bricks; rw [scanBricks]
  | succ n ih =>
    intro i ball bricks
    cases hi : bricks[i]? with
    | none => rw [scanBricks]; simp [hi]
    | some c =>
      by_cases hit : 0 < c.health
          ∧ chk ball.position BALL_RADIUS (rectOf c.position c.dimensions) = true
      · rw [scanBricks_hit chk n i ball bricks c hi hit.1 hit.2]
        exact List.length_set _ _ _
      · rw [scanBricks_skip chk n i ball bricks c hi (fun h0 => by
          by_contra hne; exact hit ⟨h0, by simpa using hne⟩)]
        exact ih (i + 1) ball bricks

/-- Every state the game reaches holds the wall of `WallBuild(6, 12)` up to
brick health: 72 bricks, each of health at most 1. -/
theorem frames_wall_WF (chk : Vector2 → ℚ → Rectangle → Bool) :
    ∀ (ks : List Keys) (g g' : Game), frames chk ks g = some g' →
      (g.wall.height = WALL_HEIGHT ∧ g.wall.width = WALL_WIDTH
        ∧ g.wall.bricks.length = WALL_HEIGHT * WALL_WIDTH) →
      (g'.wall.height = WALL_HEIGHT ∧ g'.wall.width = WALL_WIDTH
        ∧ g'.wall.bricks.length = WALL_HEIGHT * WALL_WIDTH) := by
  have hnew : (WallBuild WALL_HEIGHT WALL_WIDTH).height = WALL_HEIGHT
      ∧ (WallBuild WALL_HEIGHT WALL_WIDTH).width = WALL_WIDTH
      ∧ (WallBuild WALL_HEIGHT WALL_WIDTH).bricks.length = WALL_HEIGHT * WALL_WIDTH :=
    ⟨rfl, rfl, WallBuild_bricks_length _ _ (by norm_num [WALL_HEIGHT, WALL_WIDTH, INT_MAX])⟩
  have hupd : ∀ (right left : Bool) (g : Game),
      (update chk right left g).wall.height = g.wall.height
      ∧ (update chk right left g).wall.width = g.wall.width
      ∧ (update chk right left g).wall.bricks.length = g.wall.bricks.length := by
    intro right left g
    cases hc : chk (BallMove g.ball).position BALL_RADIUS
        (rectOf (PaddleMove right left g.paddle).position
          (PaddleMove right left g.paddle).dimensions)
    · rw [update_paddle_miss chk right left g hc]
      exact ⟨rfl, rfl, scanBricks_length chk _ _ _ _⟩
    · rw [update_paddle_hit chk right left g hc]
      exact ⟨rfl, rfl, rfl⟩
  intro ks
  induction ks with
  | nil => intro g g' hf h; simp only [frames, Option.some.injEq] at hf; subst hf; exact h
  | cons k ks ih =>
    intro g g' hf h
    rw [frames] at hf
    cases hk : frame chk k g with
    | none => simp [hk] at hf
    | some g1 =>
      simp only [hk] at hf
      refine ih g1 g' hf ?_
      have hctl : (g.afterControls k).wall.height = WALL_HEIGHT
          ∧ (g.afterControls k).wall.width = WALL_WIDTH
          ∧ (g.afterControls k).wall.bricks.length = WALL_HEIGHT * WALL_WIDTH := by
        cases hr : k.r with
        | false => rw [(afterControls_no_reset k g hr).1]; exact h
        | true => rw [(afterControls_reset k g hr).1]; exact hnew
      rcases frame_some chk k g g1 hk with h1 | h1
      · rw [h1]; exact hctl
      · obtain ⟨a, b, c⟩ := hupd k.right k.left (g.afterControls k)
        rw [h1, a, b, c]; exact hctl

/-- Every state the game reaches from its start has a well-formed wall. -/
theorem frames_start_WF (chk : Vector2 → ℚ → Rectangle → Bool) (ks : List Keys) (g : Game)
    (hf : frames chk ks Game.start = some g) : g.wall.WF := by
  obtain ⟨hh, hw, hl⟩ := frames_wall_WF chk ks Game.start g hf
    ⟨rfl, rfl, WallBuild_bricks_length _ _ (by norm_num [WALL_HEIGHT, WALL_WIDTH, INT_MAX])⟩
  refine ⟨by rw [hh, hw]; norm_num [WALL_HEIGHT, WALL_WIDTH, INT_MAX], by rw [hl, hh, hw], ?_⟩
  intro b hb
  have := frames_health_le chk ks Game.start g hf
    (fun b hb => le_of_eq (WallBuild_bricks_health _ _ b hb)) b hb
  simp only [UINT_MOD]
  omega

/-- C4: in every state the game reaches from its start by any sequence of
frames, every brick has health 0 or 1; and a frame without reset leaves a
brick of health 0 exactly as it was, so its health stays 0 and the unsigned
decrement never wraps. -/
theorem brick_destruction_permanent (chk : Vector2 → ℚ → Rectangle → Bool) :
    (∀ (ks : List Keys) (g : Game), frames chk ks Game.start = some g →
        ∀ b ∈ g.wall.bricks, b.health = 0 ∨ b.health = 1)
    ∧ (∀ (k : Keys) (g g' : Game) (i : Nat) (b : Brick), k.r = false →
        frame chk k g = some g' → g.wall.bricks[i]? = some b → b.health = 0 →
        g'.wall.bricks[i]? = some b) := by
  constructor
  · intro ks g hf b hb
    have := frames_health_le chk ks Game.start g hf
      (fun b hb => le_of_eq (WallBuild_bricks_health _ _ b hb)) b hb
    omega
  · intro k g g' i b hr hf hb hb0
    rcases frame_bricks chk k g g' hr hf with he | he <;> rw [he]
    · exact hb
    · exact scanBricks_dead chk i b hb0 _ _ _ _ hb

/-- C4 at sample frames: the state after the game is unpaused has bricks of
health 0 or 1 only, and a frame whose ball lies over the destroyed brick 0
leaves that brick as it was. -/
theorem brick_destruction_permanent_witness :
    (∀ b ∈ (update CheckCollisionCircleRec false false
              (Game.start.afterControls Keys.pOnly)).wall.bricks, b.health = 0 ∨ b.health = 1)
    ∧ (update CheckCollisionCircleRec false false
          (Game.overDeadBrick0.afterControls Keys.noKey)).wall.bricks[0]?
        = some { Brick.first with health := 0 } :=
  ⟨(brick_destruction_permanent CheckCollisionCircleRec).1 [Keys.pOnly]
      (update CheckCollisionCircleRec false false (Game.start.afterControls Keys.pOnly)) rfl,
    (brick_destruction_permanent CheckCollisionCircleRec).2 Keys.noKey Game.overDeadBrick0
      (update CheckCollisionCircleRec false false (Game.overDeadBrick0.afterControls Keys.noKey))
      0 { Brick.first with health := 0 } rfl rfl
      (List.getElem?_set_self (by
        rw [show Game.overBrick0.wall.bricks = (WallBuild 6 12).bricks from rfl,
          WallBuild_bricks_length 6 12 (by norm_num [INT_MAX])]
        norm_num))
      rfl⟩

/-! ## Wall size and health -/

theorem WallBrickActiveCount_loop (wall : Wall) :
    ∀ (n i : Nat) (activeCount : Int), i + n ≤ wall.bricks.length →
      WallBrickActiveCount.loop wall.bricks n i activeCount
        = activeCount + (((List.range' i n).filter wall.isActiveAt).length : Int) := by
  intro n
  induction n with
  | zero => intro i activeCount _; simp [WallBrickActiveCount.loop]
  | succ n ih =>
    intro i activeCount hlen
    have hi : wall.bricks[i]? = some wall.bricks[i] := List.getElem?_eq_getElem (by omega)
    rw [WallBrickActiveCount.loop]
    simp only [hi]
    rw [ih (i + 1) _ (by omega), List.range'_succ, List.filter_cons]
    by_cases hh : 0 < wall.bricks[i].health
    · simp [Wall.isActiveAt, hi, hh]; ring
    · simp [Wall.isActiveAt, hi, hh]

theorem WallBrickActiveCount_eq (wall : Wall) (hwf : wall.WF) :
    WallBrickActiveCount wall
      = (((List.range (wall.height * wall.width)).filter wall.isActiveAt).length : Int) := by
  obtain ⟨hcount, hlen, _⟩ := hwf
  rw [WallBrickActiveCount, WallBrickCount_of_le wall hcount, Int.toNat_ofNat,
    WallBrickActiveCount_loop wall _ 0 0 (by omega), List.range_eq_range']
  simp

theorem WallBuild_isActiveAt (h w i : Nat) (hle : h * w ≤ INT_MAX) (hi : i < h * w) :
    (WallBuild h w).isActiveAt i = true := by
  simp [Wall.isActiveAt, WallBuild_bricks_getElem? h w i hle hi, rowMajorBrick]

theorem rowMajorBrick_covers_iff (w i : Nat) (p : Vector2) :
    (rowMajorBrick w i).covers p ↔
      (((i % w : Nat) : ℚ) ≤ (p.x - (SCREEN_WIDTH - (w : ℚ) * BRICK_WIDTH) / 2) / BRICK_WIDTH
        ∧ (p.x - (SCREEN_WIDTH - (w : ℚ) * BRICK_WIDTH) / 2) / BRICK_WIDTH < ((i % w : Nat) : ℚ) + 1
        ∧ ((i / w : Nat) : ℚ) ≤ (p.y - BRICK_HEIGHT) / BRICK_HEIGHT
        ∧ (p.y - BRICK_HEIGHT) / BRICK_HEIGHT < ((i / w : Nat) : ℚ) + 1) := by
  have hW : (0:ℚ) < BRICK_WIDTH := by norm_num [BRICK_WIDTH]
  have hH : (0:ℚ) < BRICK_HEIGHT := by norm_num [BRICK_HEIGHT]
  simp only [Brick.covers, rowMajorBrick]
  rw [le_div_iff₀ hW, div_lt_iff₀ hW, le_div_iff₀ hH, div_lt_iff₀ hH]
  constructor
  · rintro ⟨h1, h2, h3, h4⟩
    refine ⟨by linarith, by linarith, by linarith, by linarith⟩
  · rintro ⟨h1, h2, h3, h4⟩
    refine ⟨by linarith, by linarith, by linarith, by linarith⟩

theorem rowMajorBrick_covers_inj (w i j : Nat) (p : Vector2)
    (hi : (rowMajorBrick w i).covers p) (hj : (rowMajorBrick w j).covers p) : i = j := by
  obtain ⟨a1, a2, a3, a4⟩ := (rowMajorBrick_covers_iff w i p).mp hi
  obtain ⟨b1, b2, b3, b4⟩ := (rowMajorBrick_covers_iff w j p).mp hj
  have hc1 : ((i % w : Nat) : ℚ) < ((j % w : Nat) : ℚ) + 1 := lt_of_le_of_lt a1 b2
  have hc2 : ((j % w : Nat) : ℚ) < ((i % w : Nat) : ℚ) + 1 := lt_of_le_of_lt b1 a2
  have hr1 : ((i / w : Nat) : ℚ) < ((j / w : Nat) : ℚ) + 1 := lt_of_le_of_lt a3 b4
  have hr2 : ((j / w : Nat) : ℚ) < ((i / w : Nat) : ℚ) + 1 := lt_of_le_of_lt b3 a4
  have hc1' : i % w < j % w + 1 := by exact_mod_cast hc1
  have hc2' : j % w < i % w + 1 := by exact_mod_cast hc2
  have hr1' : i / w < j / w + 1 := by exact_mod_cast hr1
  have hr2' : j / w < i / w + 1 := by exact_mod_cast hr2
  have hmod : i % w = j % w := by omega
  have hdiv : i / w = j / w := by omega
  rw [← Nat.div_add_mod i w, ← Nat.div_add_mod j w, hmod, hdiv]

theorem BallMove_inactive (b : Ball) (h : b.active = false) : BallMove b = b := by
  simp [BallMove, h]

theorem BallMove_iterate_inactive (b : Ball) (h : b.active = false) :
    ∀ n : Nat, BallMove^[n] b = b := by
  intro n
  induction n with
  | zero => rfl
  | succ n ih => rw [Function.iterate_succ_apply, BallMove_inactive b h, ih]

/-- C7: when the advanced position of an active ball has `y >= SCREEN_HEIGHT`,
`BallMove` leaves `active = false` and does not touch `velocity.y`; `BallMove`
returns an inactive ball unchanged; so no further sequence of `BallMove` calls
changes the lost ball. -/
theorem ball_loss (b : Ball) (hactive : b.active = true)
    (hy : SCREEN_HEIGHT ≤ b.position.y + b.velocity.y) :
    (BallMove b).active = false
    ∧ (BallMove b).velocity.y = b.velocity.y
    ∧ (∀ b' : Ball, b'.active = false → BallMove b' = b')
    ∧ (∀ n : Nat, BallMove^[n] (BallMove b) = BallMove b) := by
  have hnot : ¬ (b.position.y + b.velocity.y - BALL_RADIUS ≤ 0) := by
    simp only [SCREEN_HEIGHT, BALL_RADIUS] at hy ⊢
    linarith
  have hinact : (BallMove b).active = false := by
    simp only [BallMove, hactive]
    split_ifs <;> simp_all
  refine ⟨hinact, ?_, BallMove_inactive, BallMove_iterate_inactive _ hinact⟩
  simp only [BallMove, hactive]
  split_ifs <;> simp_all

/-- C7 at a sample ball one step above the bottom of the screen. -/
theorem ball_loss_witness :
    (BallMove Ball.falling).active = false
    ∧ (BallMove Ball.falling).velocity.y = Ball.falling.velocity.y
    ∧ (∀ b' : Ball, b'.active = false → BallMove b' = b')
    ∧ (∀ n : Nat, BallMove^[n] (BallMove Ball.falling) = BallMove Ball.falling) :=
  ball_loss Ball.falling rfl (by norm_num [Ball.falling, SCREEN_HEIGHT])

/-- C9: for any intersection predicate, `BallHandleCollision` returns, for a
brick and for a paddle alike, exactly the value of the predicate on the circle
(ball position, `BALL_RADIUS`) and the rectangle built from the other object's
position and dimensions; when it returns `false`, the ball and the other
object are returned unchanged. -/
theorem collision_miss (chk : Vector2 → ℚ → Rectangle → Bool) (ball : Ball) :
    (∀ brick : Brick,
      (BallHandleCollision chk ball (Obj.brick brick)).1
          = chk ball.position BALL_RADIUS
              ⟨brick.position.x, brick.position.y, brick.dimensions.x, brick.dimensions.y⟩
      ∧ ((BallHandleCollision chk ball (Obj.brick brick)).1 = false →
          (BallHandleCollision chk ball (Obj.brick brick)).2 = (ball, Obj.brick brick)))
    ∧ (∀ paddle : Paddle,
      (BallHandleCollision chk ball (Obj.paddle paddle)).1
          = chk ball.position BALL_RADIUS
              ⟨paddle.position.x, paddle.position.y, paddle.dimensions.x, paddle.dimensions.y⟩
      ∧ ((BallHandleCollision chk ball (Obj.paddle paddle)).1 = false →
          (BallHandleCollision chk ball (Obj.paddle paddle)).2 = (ball, Obj.paddle paddle))) := by
  constructor
  · intro brick
    cases hc : chk ball.position BALL_RADIUS
        ⟨brick.position.x, brick.position.y, brick.dimensions.x, brick.dimensions.y⟩ <;>
      simp [BallHandleCollision, rectOf, hc]
  · intro paddle
    cases hc : chk ball.position BALL_RADIUS
        ⟨paddle.position.x, paddle.position.y, paddle.dimensions.x, paddle.dimensions.y⟩ <;>
      simp [BallHandleCollision, rectOf, hc]

/-- C9 at a sample miss: the fresh ball against the fresh paddle and against
brick 0. -/
theorem collision_miss_witness :
    (BallHandleCollision CheckCollisionCircleRec BallNew (Obj.brick Brick.first)).2
        = (BallNew, Obj.brick Brick.first)
    ∧ (BallHandleCollision CheckCollisionCircleRec BallNew (Obj.paddle PaddleNew)).2
        = (BallNew, Obj.paddle PaddleNew) :=
  ⟨((collision_miss CheckCollisionCircleRec BallNew).1 Brick.first).2
      (by
        norm_num [BallHandleCollision, rectOf, CheckCollisionCircleRec, BallNew, Brick.first,
          SCREEN_WIDTH, SCREEN_HEIGHT, BRICK_WIDTH, BRICK_HEIGHT, BALL_RADIUS, abs_le]),
    ((collision_miss CheckCollisionCircleRec BallNew).2 PaddleNew).2
      (by
        norm_num [BallHandleCollision, rectOf, CheckCollisionCircleRec, BallNew, PaddleNew,
          SCREEN_WIDTH, SCREEN_HEIGHT, PADDLE_WIDTH, PADDLE_HEIGHT, BALL_RADIUS, abs_le])⟩

/-- C10: when the predicate holds, `BallHandleCollision` returns `true` and the
ball with `velocity.y` negated and every other field as it was; a paddle is
returned unchanged; a brick is returned with its health decreased by 1 modulo
2^32 (by exactly 1 when it was positive) and every other field as it was. -/
theorem collision_response (chk : Vector2 → ℚ → Rectangle → Bool) (ball : Ball) :
    (∀ paddle : Paddle,
      chk ball.position BALL_RADIUS
          ⟨paddle.position.x, paddle.position.y, paddle.dimensions.x, paddle.dimensions.y⟩ = true →
      BallHandleCollision chk ball (Obj.paddle paddle)
        = (true,
            { active := ball.active, position := ball.position,
              velocity := ⟨ball.velocity.x, -ball.velocity.y⟩, color := ball.color },
            Obj.paddle paddle))
    ∧ (∀ brick : Brick,
      chk ball.position BALL_RADIUS
          ⟨brick.position.x, brick.position.y, brick.dimensions.x, brick.dimensions.y⟩ = true →
      ∃ brick' : Brick,
        BallHandleCollision chk ball (Obj.brick brick)
          = (true,
              { active := ball.active, position := ball.position,
                velocity := ⟨ball.velocity.x, -ball.velocity.y⟩, color := ball.color },
              Obj.brick brick')
        ∧ brick'.position = brick.position ∧ brick'.dimensions = brick.dimensions
        ∧ brick'.color = brick.color ∧ brick'.type = brick.type
        ∧ (brick'.health : Int) = ((brick.health : Int) - 1) % 4294967296
        ∧ (0 < brick.health → brick.health < UINT_MOD → brick'.health + 1 = brick.health)) := by
  constructor
  · intro paddle hc
    simp [BallHandleCollision, rectOf, hc]
  · intro brick hc
    refine ⟨{ brick with health := (brick.health + UINT_MOD - 1) % UINT_MOD }, ?_, rfl, rfl, rfl,
      rfl, ?_, ?_⟩
    · simp [BallHandleCollision, rectOf, hc]
    · simp only [UINT_MOD]
      omega
    · intro h0 h1
      simp only [UINT_MOD] at h1 ⊢
      omega

/-- C10 at a sample hit: the ball over the corner of brick 0, and the ball of
`Game.paddleAndBrick` once moved onto the paddle. -/
theorem collision_response_witness :
    BallHandleCollision CheckCollisionCircleRec (BallMove Game.paddleAndBrick.ball)
        (Obj.paddle PaddleNew)
      = (true,
          { active := (BallMove Game.paddleAndBrick.ball).active,
            position := (BallMove Game.paddleAndBrick.ball).position,
            velocity := ⟨(BallMove Game.paddleAndBrick.ball).velocity.x,
                          -(BallMove Game.paddleAndBrick.ball).velocity.y⟩,
            color := (BallMove Game.paddleAndBrick.ball).color },
          Obj.paddle PaddleNew)
    ∧ ∃ brick' : Brick,
        BallHandleCollision CheckCollisionCircleRec Ball.onBrick0 (Obj.brick Brick.first)
          = (true,
              { active := Ball.onBrick0.active, position := Ball.onBrick0.position,
                velocity := ⟨Ball.onBrick0.velocity.x, -Ball.onBrick0.velocity.y⟩,
                color := Ball.onBrick0.color },
              Obj.brick brick')
        ∧ brick'.position = Brick.first.position ∧ brick'.dimensions = Brick.first.dimensions
        ∧ brick'.color = Brick.first.color ∧ brick'.type = Brick.first.type
        ∧ (brick'.health : Int) = ((Brick.first.health : Int) - 1) % 4294967296
        ∧ (0 < Brick.first.health → Brick.first.health < UINT_MOD →
            brick'.health + 1 = Brick.first.health) :=
  ⟨(collision_response CheckCollisionCircleRec (BallMove Game.paddleAndBrick.ball)).1 PaddleNew
      (by
        norm_num [Game.paddleAndBrick, BallMove, PaddleNew, CheckCollisionCircleRec,
          SCREEN_WIDTH, SCREEN_HEIGHT, PADDLE_HEIGHT, PADDLE_WIDTH, BALL_RADIUS]),
    (collision_response CheckCollisionCircleRec Ball.onBrick0).2 Brick.first
      (by
        norm_num [Ball.onBrick0, Brick.first, CheckCollisionCircleRec, BRICK_WIDTH,
          BRICK_HEIGHT, BALL_RADIUS])⟩

/-! ## Game modes -/

theorem afterControls_gamePaused (k : Keys) (g : Game) :
    (g.afterControls k).gamePaused = (if k.p then !g.gamePaused else g.gamePaused) := by
  unfold Game.afterControls
  cases hp : k.p <;> cases hr : k.r <;> simp

/-- The brick scan leaves the ball as it was, but for `velocity.y`. -/
theorem scanBricks_ball (chk : Vector2 → ℚ → Rectangle → Bool) :
    ∀ (n i : Nat) (ball : Ball) (bricks : List Brick),
      (scanBricks chk n i ball bricks).1.active = ball.active
      ∧ (scanBricks chk n i ball bricks).1.position = ball.position
      ∧ (scanBricks chk n i ball bricks).1.velocity.x = ball.velocity.x
      ∧ (scanBricks chk n i ball bricks).1.color = ball.color
      ∧ ((scanBricks chk n i ball bricks).1.velocity.y = ball.velocity.y
          ∨ (scanBricks chk n i ball bricks).1.velocity.y = -ball.velocity.y) := by
  intro n
  induction n with
  | zero => intro i ball bricks; rw [scanBricks]; simp
  | succ n ih =>
    intro i ball bricks
    cases hi : bricks[i]? with
    | none => rw [scanBricks]; simp [hi]
    | some c =>
      by_cases hit : 0 < c.health
          ∧ chk ball.position BALL_RADIUS (rectOf c.position c.dimensions) = true
      · rw [scanBricks_hit chk n i ball bricks c hi hit.1 hit.2]
        simp
      · rw [scanBricks_skip chk n i ball bricks c hi (fun h0 => by
          by_contra hne; exact hit ⟨h0, by simpa using hne⟩)]
        exact ih (i + 1) ball bricks

/-- The update leaves the pause flag alone, moves the paddle with `PaddleMove`
and leaves the ball as `BallMove` returned it, but for `velocity.y`. -/
theorem update_fields (chk : Vector2 → ℚ → Rectangle → Bool) (right left : Bool) (g : Game) :
    (update chk right left g).gamePaused = g.gamePaused
    ∧ (update chk right left g).paddle = PaddleMove right left g.paddle
    ∧ (update chk right left g).ball.active = (BallMove g.ball).active
    ∧ (update chk right left g).ball.position = (BallMove g.ball).position
    ∧ (update chk right left g).ball.velocity.x = (BallMove g.ball).velocity.x
    ∧ (update chk right left g).ball.color = (BallMove g.ball).color
    ∧ ((update chk right left g).ball.velocity.y = (BallMove g.ball).velocity.y
        ∨ (update chk right left g).ball.velocity.y = -(BallMove g.ball).velocity.y) := by
  cases hc : chk (BallMove g.ball).position BALL_RADIUS
      (rectOf (PaddleMove right left g.paddle).position (PaddleMove right left g.paddle).dimensions)
  · rw [update_paddle_miss chk right left g hc]
    obtain ⟨a, b, c, d, e⟩ := scanBricks_ball chk (WallBrickCount g.wall).toNat 0
      (BallMove g.ball) g.wall.bricks
    exact ⟨rfl, rfl, a, b, c, d, e⟩
  · rw [update_paddle_hit chk right left g hc]
    simp

/-- A frame in which the loop is not left returns a state. -/
theorem frame_isSome (chk : Vector2 → ℚ → Rectangle → Bool) (k : Keys) (g : Game)
    (hclose : k.close = false) (hq : k.q = false) :
    ∃ g', frame chk k g = some g' := by
  rw [frame_eq]
  simp only [hclose, hq, Bool.false_eq_true, if_false]
  split_ifs <;> exact ⟨_, rfl⟩

/-- C11: in a frame with neither quit nor reset held, when the ball is
inactive, or is active while the pause flag is set once the pause key has been
applied, the frame returns a state with the paddle, the wall and the ball it
started with, whatever the left and right keys are. -/
theorem no_physics_outside_playing (chk : Vector2 → ℚ → Rectangle → Bool) (k : Keys) (g : Game)
    (hclose : k.close = false) (hq : k.q = false) (hr : k.r = false)
    (hmode : g.ball.active = false
      ∨ (g.ball.active = true ∧ (if k.p then !g.gamePaused else g.gamePaused) = true)) :
    ∃ g', frame chk k g = some g'
      ∧ g'.paddle = g.paddle ∧ g'.wall = g.wall ∧ g'.ball = g.ball := by
  obtain ⟨hw, hb, hp⟩ := afterControls_no_reset k g hr
  have hpause := afterControls_gamePaused k g
  refine ⟨g.afterControls k, ?_, hp, hw, hb⟩
  rw [frame_eq]
  simp only [hclose, hq, hb, hpause]
  rcases hmode with h | ⟨h1, h2⟩
  · simp [h]
  · simp [h1, h2]

/-- C11 at sample frames with the left and right keys held: the game over, and
the paused game at its start. -/
theorem no_physics_outside_playing_witness :
    (∃ g', frame CheckCollisionCircleRec Keys.leftRight Game.over = some g'
      ∧ g'.paddle = Game.over.paddle ∧ g'.wall = Game.over.wall ∧ g'.ball = Game.over.ball)
    ∧ (∃ g', frame CheckCollisionCircleRec Keys.leftRight Game.start = some g'
      ∧ g'.paddle = Game.start.paddle ∧ g'.wall = Game.start.wall
      ∧ g'.ball = Game.start.ball) :=
  ⟨no_physics_outside_playing CheckCollisionCircleRec Keys.leftRight Game.over rfl rfl rfl
      (Or.inl rfl),
    no_physics_outside_playing CheckCollisionCircleRec Keys.leftRight Game.start rfl rfl rfl
      (Or.inr ⟨rfl, rfl⟩)⟩

theorem BallMove_BallNew_active : (BallMove BallNew).active = true := by
  norm_num [BallMove, BallNew, SCREEN_WIDTH, SCREEN_HEIGHT, BALL_RADIUS, BALL_VELOCITY]

/-- C12: a frame with the reset key held and the loop not left returns a state
whose ball is active, whatever the state before; when the pause flag is set
once the pause key has been applied, the paddle, the wall and the ball of that
state are `PaddleNew()`, `WallBuild(WALL_HEIGHT, WALL_WIDTH)` and `BallNew()`,
the entities `main` starts with. -/
theorem reset_restarts (chk : Vector2 → ℚ → Rectangle → Bool) (k : Keys) (g : Game)
    (hclose : k.close = false) (hq : k.q = false) (hr : k.r = true) :
    ∃ g', frame chk k g = some g'
      ∧ g'.ball.active = true
      ∧ ((if k.p then !g.gamePaused else g.gamePaused) = true →
          g'.paddle = PaddleNew ∧ g'.wall = WallBuild WALL_HEIGHT WALL_WIDTH ∧ g'.ball = BallNew
            ∧ g'.paddle = Game.start.paddle ∧ g'.wall = Game.start.wall
            ∧ g'.ball = Game.start.ball) := by
  obtain ⟨hw, hb, hp⟩ := afterControls_reset k g hr
  have hpause := afterControls_gamePaused k g
  have hact : (g.afterControls k).ball.active = true := by rw [hb]; rfl
  cases hpaused : (if k.p then !g.gamePaused else g.gamePaused)
  · refine ⟨update chk k.right k.left (g.afterControls k), ?_, ?_, ?_⟩
    · rw [frame_eq]
      simp [hclose, hq, hact, hpause, hpaused]
    · rw [(update_fields chk k.right k.left (g.afterControls k)).2.2.1, hb]
      exact BallMove_BallNew_active
    · intro h; cases h
  · refine ⟨g.afterControls k, ?_, hact, fun _ => ⟨hp, hw, hb, hp, hw, hb⟩⟩
    rw [frame_eq]
    simp [hclose, hq, hact, hpause, hpaused]

/-- C12 at sample frames: reset of the lost game while it runs, and reset of
the lost game together with the pause key. -/
theorem reset_restarts_witness :
    (∃ g', frame CheckCollisionCircleRec Keys.rOnly Game.over = some g'
      ∧ g'.ball.active = true
      ∧ ((if Keys.rOnly.p then !Game.over.gamePaused else Game.over.gamePaused) = true →
          g'.paddle = PaddleNew ∧ g'.wall = WallBuild WALL_HEIGHT WALL_WIDTH ∧ g'.ball = BallNew
            ∧ g'.paddle = Game.start.paddle ∧ g'.wall = Game.start.wall
            ∧ g'.ball = Game.start.ball))
    ∧ (∃ g', frame CheckCollisionCircleRec Keys.pAndR Game.over = some g'
      ∧ g'.ball.active = true
      ∧ ((if Keys.pAndR.p then !Game.over.gamePaused else Game.over.gamePaused) = true →
          g'.paddle = PaddleNew ∧ g'.wall = WallBuild WALL_HEIGHT WALL_WIDTH ∧ g'.ball = BallNew
            ∧ g'.paddle = Game.start.paddle ∧ g'.wall = Game.start.wall
            ∧ g'.ball = Game.start.ball)) :=
  ⟨reset_restarts CheckCollisionCircleRec Keys.rOnly Game.over rfl rfl rfl,
    reset_restarts CheckCollisionCircleRec Keys.pAndR Game.over rfl rfl rfl⟩

/-- C18: a frame in which the loop is not left returns a state whose pause
flag is the flag before, negated when the pause key is held and kept when it
is not, so it is the negated flag exactly when the pause key is held, whatever
the ball and the reset key are; the game starts with the flag set. -/
theorem pause_toggle (chk : Vector2 → ℚ → Rectangle → Bool) (k : Keys) (g : Game)
    (hclose : k.close = false) (hq : k.q = false) :
    ∃ g', frame chk k g = some g'
      ∧ g'.gamePaused = (if k.p then !g.gamePaused else g.gamePaused)
      ∧ (g'.gamePaused = (!g.gamePaused) ↔ k.p = true)
      ∧ Game.start.gamePaused = true := by
  obtain ⟨g', hf⟩ := frame_isSome chk k g hclose hq
  have hpause := afterControls_gamePaused k g
  have hg : g'.gamePaused = (if k.p then !g.gamePaused else g.gamePaused) := by
    rcases frame_some chk k g g' hf with h | h
    · rw [h, hpause]
    · rw [h, (update_fields chk k.right k.left (g.afterControls k)).1, hpause]
  refine ⟨g', hf, hg, ?_, rfl⟩
  rw [hg]
  cases k.p <;> cases g.gamePaused <;> simp

/-- C18 at sample frames: the pause key on the lost game with reset held, and
no pause key on the running game. -/
theorem pause_toggle_witness :
    (∃ g', frame CheckCollisionCircleRec Keys.pAndR Game.over = some g'
      ∧ g'.gamePaused = (if Keys.pAndR.p then !Game.over.gamePaused else Game.over.gamePaused)
      ∧ (g'.gamePaused = (!Game.over.gamePaused) ↔ Keys.pAndR.p = true)
      ∧ Game.start.gamePaused = true)
    ∧ (∃ g', frame CheckCollisionCircleRec Keys.noKey Game.overBrick0 = some g'
      ∧ g'.gamePaused
          = (if Keys.noKey.p then !Game.overBrick0.gamePaused else Game.overBrick0.gamePaused)
      ∧ (g'.gamePaused = (!Game.overBrick0.gamePaused) ↔ Keys.noKey.p = true)
      ∧ Game.start.gamePaused = true) :=
  ⟨pause_toggle CheckCollisionCircleRec Keys.pAndR Game.over rfl rfl,
    pause_toggle CheckCollisionCircleRec Keys.noKey Game.overBrick0 rfl rfl⟩

/-! ## Paddle placement -/

/-- C13, evaluated on the code: `PaddleNew()` puts the left edge of the paddle
at x = 400, the middle of the screen, so the middle of the paddle is at
x = 440, not at `SCREEN_WIDTH / 2`; the margin on the left is 400, the margin
on the right is 320. -/
theorem PaddleNew_left_edge_at_centre :
    PaddleNew.position.x = SCREEN_WIDTH / 2
    ∧ PaddleNew.position.x + PADDLE_WIDTH / 2 = 440
    ∧ SCREEN_WIDTH / 2 = 400
    ∧ PaddleNew.position.x + PADDLE_WIDTH / 2 ≠ SCREEN_WIDTH / 2
    ∧ SCREEN_WIDTH - (PaddleNew.position.x + PADDLE_WIDTH) = 320
    ∧ PaddleNew.position.x ≠ SCREEN_WIDTH - (PaddleNew.position.x + PADDLE_WIDTH) := by
  norm_num [PaddleNew, SCREEN_WIDTH, PADDLE_WIDTH]

/-! ## Bricks never move -/

/-- The brick scan keeps every brick in place, changing at most its health. -/
theorem scanBricks_fields (chk : Vector2 → ℚ → Rectangle → Bool) (j : Nat) :
    ∀ (n i : Nat) (ball : Ball) (bricks : List Brick) (b : Brick), bricks[j]? = some b →
      ∃ b' : Brick, (scanBricks chk n i ball bricks).2[j]? = some b'
        ∧ b'.position = b.position ∧ b'.dimensions = b.dimensions
        ∧ b'.color = b.color ∧ b'.type = b.type := by
  intro n
  induction n with
  | zero => intro i ball bricks b h; rw [scanBricks]; exact ⟨b, h, rfl, rfl, rfl, rfl⟩
  | succ n ih =>
    intro i ball bricks b h
    cases hi : bricks[i]? with
    | none => rw [scanBricks]; simp only [hi]; exact ⟨b, h, rfl, rfl, rfl, rfl⟩
    | some c =>
      by_cases hit : 0 < c.health
          ∧ chk ball.position BALL_RADIUS (rectOf c.position c.dimensions) = true
      · rw [scanBricks_hit chk n i ball bricks c hi hit.1 hit.2]
        by_cases hij : i = j
        · subst hij
          have hlt : i < bricks.length := by
            rcases List.getElem?_eq_some.mp hi with ⟨hlt, _⟩
            exact hlt
          rw [hi] at h
          cases h
          exact ⟨_, List.getElem?_set_self hlt, rfl, rfl, rfl, rfl⟩
        · refine ⟨b, ?_, rfl, rfl, rfl, rfl⟩
          simp only []
          rw [List.getElem?_set_ne hij]
          exact h
      · rw [scanBricks_skip chk n i ball bricks c hi (fun h0 => by
          by_contra hne; exact hit ⟨h0, by simpa using hne⟩)]
        exact ih (i + 1) ball bricks b h

/-- C14: a frame without reset in which the loop is not left returns a state
whose wall has the height, the width and the number of bricks it started with,
and in which every brick has the position, the dimensions, the colour and the
type tag it started with: only the health of a brick can differ. -/
theorem bricks_never_move (chk : Vector2 → ℚ → Rectangle → Bool) (k : Keys) (g : Game)
    (hclose : k.close = false) (hq : k.q = false) (hr : k.r = false) :
    ∃ g', frame chk k g = some g'
      ∧ g'.wall.height = g.wall.height ∧ g'.wall.width = g.wall.width
      ∧ g'.wall.bricks.length = g.wall.bricks.length
      ∧ (∀ (i : Nat) (b : Brick), g.wall.bricks[i]? = some b →
          ∃ b' : Brick, g'.wall.bricks[i]? = some b'
            ∧ b'.position = b.position ∧ b'.dimensions = b.dimensions
            ∧ b'.color = b.color ∧ b'.type = b.type) := by
  obtain ⟨g', hf⟩ := frame_isSome chk k g hclose hq
  obtain ⟨hw, hb, _⟩ := afterControls_no_reset k g hr
  refine ⟨g', hf, ?_⟩
  rcases frame_some chk k g g' hf with h | h
  · rw [h, hw]
    exact ⟨rfl, rfl, rfl, fun i b hib => ⟨b, hib, rfl, rfl, rfl, rfl⟩⟩
  · cases hc : chk (BallMove (g.afterControls k).ball).position BALL_RADIUS
        (rectOf (PaddleMove k.right k.left (g.afterControls k).paddle).position
          (PaddleMove k.right k.left (g.afterControls k).paddle).dimensions)
    · rw [h, update_paddle_miss chk k.right k.left (g.afterControls k) hc, hw]
      refine ⟨rfl, rfl, scanBricks_length chk _ _ _ _, ?_⟩
      intro i b hib
      exact scanBricks_fields chk i _ _ _ _ b hib
    · rw [h, update_paddle_hit chk k.right k.left (g.afterControls k) hc, hw]
      exact ⟨rfl, rfl, rfl, fun i b hib => ⟨b, hib, rfl, rfl, rfl, rfl⟩⟩

/-- C14 at a sample frame: the ball destroys brick 0 of the fresh wall. -/
theorem bricks_never_move_witness :
    ∃ g', frame CheckCollisionCircleRec Keys.noKey Game.overBrick0 = some g'
      ∧ g'.wall.height = Game.overBrick0.wall.height
      ∧ g'.wall.width = Game.overBrick0.wall.width
      ∧ g'.wall.bricks.length = Game.overBrick0.wall.bricks.length
      ∧ (∀ (i : Nat) (b : Brick), Game.overBrick0.wall.bricks[i]? = some b →
          ∃ b' : Brick, g'.wall.bricks[i]? = some b'
            ∧ b'.position = b.position ∧ b'.dimensions = b.dimensions
            ∧ b'.color = b.color ∧ b'.type = b.type) :=
  bricks_never_move CheckCollisionCircleRec Keys.noKey Game.overBrick0 rfl rfl rfl

/-! ## Wall colours -/

/-- Whatever brick `WallBuild` stores at index `i` is the brick of the
row-major layout, also when the product `width * height` wraps. -/
theorem WallBuild_bricks_eq_rowMajorBrick (h w i : Nat) (b : Brick)
    (hb : (WallBuild h w).bricks[i]? = some b) : b = rowMajorBrick w i := by
  have hi : i < (w * h) % UINT_MOD := by
    rcases List.getElem?_eq_some.mp hb with ⟨hlt, _⟩
    simpa only [WallBuild, WallBuild_loop_length] using hlt
  have hw : 0 < w := by
    rcases Nat.eq_zero_or_pos w with h0 | h0
    · subst h0; simp at hi
    · exact h0
  have := WallBuild_loop_getElem? w ((w * h) % UINT_MOD) 0 0 false
    ⟨(SCREEN_WIDTH - (w : ℚ) * BRICK_WIDTH) / 2, 0⟩ hw
    ⟨fun _ => by simp, fun h => absurd rfl h⟩ i hi
  simp only [Nat.zero_mul, Nat.zero_add] at this
  simp only [WallBuild] at hb
  rw [this] at hb
  exact (Option.some.inj hb).symm

theorem GREEN_ne_LIGHTGRAY : GREEN ≠ LIGHTGRAY := by
  simp [GREEN, LIGHTGRAY]

theorem sign_of_sign {a b v : ℚ} (h : a = b ∨ a = -b) (hb : b = v ∨ b = -v) :
    a = v ∨ a = -v := by
  rcases h with h | h <;> rcases hb with hb | hb <;> subst h <;> subst hb <;> simp

/-- `BallMove` changes a velocity component by its sign at most. -/
theorem BallMove_velocity (b : Ball) :
    ((BallMove b).velocity.x = b.velocity.x ∨ (BallMove b).velocity.x = -b.velocity.x)
    ∧ ((BallMove b).velocity.y = b.velocity.y ∨ (BallMove b).velocity.y = -b.velocity.y) := by
  simp only [BallMove]
  split_ifs <;> simp

/-- `BallHandleCollision` keeps `velocity.x` and changes `velocity.y` by its
sign at most. -/
theorem BallHandleCollision_velocity (chk : Vector2 → ℚ → Rectangle → Bool) (b : Ball)
    (other : Obj) :
    (BallHandleCollision chk b other).2.1.velocity.x = b.velocity.x
    ∧ ((BallHandleCollision chk b other).2.1.velocity.y = b.velocity.y
        ∨ (BallHandleCollision chk b other).2.1.velocity.y = -b.velocity.y) := by
  cases other <;> simp only [BallHandleCollision] <;> split_ifs <;> simp

theorem BallCalls_speed (chk : Vector2 → ℚ → Rectangle → Bool) (calls : List BallCall) :
    ∀ b : Ball,
      (b.velocity.x = BALL_VELOCITY ∨ b.velocity.x = -BALL_VELOCITY) →
      (b.velocity.y = BALL_VELOCITY ∨ b.velocity.y = -BALL_VELOCITY) →
      ((BallCalls chk calls b).velocity.x = BALL_VELOCITY
        ∨ (BallCalls chk calls b).velocity.x = -BALL_VELOCITY)
      ∧ ((BallCalls chk calls b).velocity.y = BALL_VELOCITY
        ∨ (BallCalls chk calls b).velocity.y = -BALL_VELOCITY) := by
  induction calls with
  | nil => intro b hx hy; exact ⟨hx, hy⟩
  | cons c cs ih =>
    intro b hx hy
    simp only [BallCalls, List.foldl_cons]
    cases c with
    | move =>
      exact ih (BallMove b) (sign_of_sign (BallMove_velocity b).1 hx)
        (sign_of_sign (BallMove_velocity b).2 hy)
    | collide other =>
      refine ih _ ?_ (sign_of_sign (BallHandleCollision_velocity chk b other).2 hy)
      simp only [BallCall.run]
      rw [(BallHandleCollision_velocity chk b other).1]
      exact hx

/-- C16: after any finite sequence of `BallMove` and `BallHandleCollision`
calls on the ball of `BallNew()`, against any bricks and paddles and for any
intersection predicate, each velocity component is `BALL_VELOCITY` or
`-BALL_VELOCITY`, so its absolute value is `BALL_VELOCITY`. -/
theorem ball_speed_invariant (chk : Vector2 → ℚ → Rectangle → Bool) (calls : List BallCall) :
    ((BallCalls chk calls BallNew).velocity.x = BALL_VELOCITY
      ∨ (BallCalls chk calls BallNew).velocity.x = -BALL_VELOCITY)
    ∧ ((BallCalls chk calls BallNew).velocity.y = BALL_VELOCITY
      ∨ (BallCalls chk calls BallNew).velocity.y = -BALL_VELOCITY)
    ∧ |(BallCalls chk calls BallNew).velocity.x| = BALL_VELOCITY
    ∧ |(BallCalls chk calls BallNew).velocity.y| = BALL_VELOCITY := by
  obtain ⟨hx, hy⟩ := BallCalls_speed chk calls BallNew (Or.inl rfl) (Or.inl rfl)
  have hv : (0:ℚ) ≤ BALL_VELOCITY := by norm_num [BALL_VELOCITY]
  refine ⟨hx, hy, ?_, ?_⟩
  · rcases hx with h | h <;> rw [h]
    · exact abs_of_nonneg hv
    · rw [abs_neg]; exact abs_of_nonneg hv
  · rcases hy with h | h <;> rw [h]
    · exact abs_of_nonneg hv
    · rw [abs_neg]; exact abs_of_nonneg hv

/-- The two horizontal tests of `BallMove` exclude each other. -/
theorem BallMove_x_tests_exclusive (x : ℚ) :
    ¬ (x + BALL_RADIUS ≥ SCREEN_WIDTH ∧ x - BALL_RADIUS ≤ 0) := by
  rintro ⟨h1, h2⟩
  simp only [SCREEN_WIDTH, BALL_RADIUS] at h1 h2
  linarith

/-- The horizontal part of `BallMove` on an active ball. -/
theorem BallMove_active_x (b : Ball) (hactive : b.active = true) :
    (BallMove b).position.x = b.position.x + b.velocity.x
    ∧ (BallMove b).velocity.x
        = (if b.position.x + b.velocity.x + BALL_RADIUS ≥ SCREEN_WIDTH
              ∨ b.position.x + b.velocity.x - BALL_RADIUS ≤ 0
            then -b.velocity.x else b.velocity.x) := by
  have hexcl := BallMove_x_tests_exclusive (b.position.x + b.velocity.x)
  constructor
  · simp only [BallMove, hactive]
    split_ifs <;> simp_all
  by_cases h1 : b.position.x + b.velocity.x + BALL_RADIUS ≥ SCREEN_WIDTH
  · have h2 : ¬ (b.position.x + b.velocity.x - BALL_RADIUS ≤ 0) := fun h2 => hexcl ⟨h1, h2⟩
    rw [if_pos (Or.inl h1)]
    simp only [BallMove, hactive]
    split_ifs <;> simp_all
  · by_cases h2 : b.position.x + b.velocity.x - BALL_RADIUS ≤ 0
    · rw [if_pos (Or.inr h2)]
      simp only [BallMove, hactive]
      split_ifs <;> simp_all
    · rw [if_neg (not_or.mpr ⟨h1, h2⟩)]
      simp only [BallMove, hactive]
      split_ifs <;> simp_all

theorem BallNew_XInv : BallNew.XInv := by
  refine ⟨200, ?_, by norm_num, by norm_num, Or.inl rfl, ?_, ?_⟩
  · norm_num [BallNew, SCREEN_WIDTH]
  · intro h; norm_num at h
  · intro h; norm_num at h

theorem XInv_congr (b b' : Ball) (hp : b'.position.x = b.position.x)
    (hv : b'.velocity.x = b.velocity.x) (h : b.XInv) : b'.XInv := by
  obtain ⟨n, h1, h2, h3, h4, h5, h6⟩ := h
  exact ⟨n, by rw [hp, h1], h2, h3, by rw [hv]; exact h4, fun e => by rw [hv]; exact h5 e,
    fun e => by rw [hv]; exact h6 e⟩

theorem BallMove_XInv (b : Ball) (h : b.XInv) : (BallMove b).XInv := by
  cases hactive : b.active with
  | false => rw [BallMove_inactive b hactive]; exact h
  | true =>
    obtain ⟨n, hx, h5, h395, hv, hhi, hlo⟩ := h
    obtain ⟨hpos, hvel⟩ := BallMove_active_x b hactive
    have hn5 : (5 : ℚ) ≤ (n : ℚ) := by exact_mod_cast h5
    have hn395 : (n : ℚ) ≤ 395 := by exact_mod_cast h395
    rcases hv with hv | hv
    · have hn : n ≠ 395 := by
        intro e
        have := hhi e
        rw [hv] at this
        norm_num at this
      refine ⟨n + 1, ?_, by omega, by omega, ?_, ?_, ?_⟩
      · rw [hpos, hx, hv]; push_cast; ring
      · rw [hvel, hv]; split_ifs <;> simp
      · intro e
        have hn394 : n = 394 := by omega
        have ht : b.position.x + b.velocity.x + BALL_RADIUS ≥ SCREEN_WIDTH := by
          rw [hx, hv, hn394]; norm_num [BALL_RADIUS, SCREEN_WIDTH]
        rw [hvel, if_pos (Or.inl ht), hv]
      · intro e; omega
    · have hn : n ≠ 5 := by
        intro e
        have := hlo e
        rw [hv] at this
        norm_num at this
      refine ⟨n - 1, ?_, by omega, by omega, ?_, ?_, ?_⟩
      · rw [hpos, hx, hv]; push_cast; ring
      · rw [hvel, hv]; split_ifs <;> simp
      · intro e; omega
      · intro e
        have hn6 : n = 6 := by omega
        have ht : b.position.x + b.velocity.x - BALL_RADIUS ≤ 0 := by
          rw [hx, hv, hn6]; norm_num [BALL_RADIUS]
        rw [hvel, if_pos (Or.inr ht), hv]; norm_num

theorem frame_XInv (chk : Vector2 → ℚ → Rectangle → Bool) (k : Keys) (g g' : Game)
    (hf : frame chk k g = some g') (h : g.ball.XInv) : g'.ball.XInv := by
  have hctl : (g.afterControls k).ball.XInv := by
    cases hr : k.r with
    | false => rw [(afterControls_no_reset k g hr).2.1]; exact h
    | true => rw [(afterControls_reset k g hr).2.1]; exact BallNew_XInv
  rcases frame_some chk k g g' hf with e | e
  · rw [e]; exact hctl
  · obtain ⟨_, _, _, hp, hv, _, _⟩ := update_fields chk k.right k.left (g.afterControls k)
    rw [e]
    exact XInv_congr _ _ (by rw [hp]) hv (BallMove_XInv _ hctl)

theorem frames_XInv (chk : Vector2 → ℚ → Rectangle → Bool) :
    ∀ (ks : List Keys) (g g' : Game), frames chk ks g = some g' → g.ball.XInv → g'.ball.XInv := by
  intro ks
  induction ks with
  | nil => intro g g' hf h; simp only [frames, Option.some.injEq] at hf; subst hf; exact h
  | cons k ks ih =>
    intro g g' hf h
    rw [frames] at hf
    cases hk : frame chk k g with
    | none => simp [hk] at hf
    | some g1 =>
      simp only [hk] at hf
      exact ih g1 g' hf (frame_XInv chk k g g1 hk h)

/-- C19: in every state the game reaches from its start by any sequence of
frames, for any intersection predicate, the ball's `position.x` lies between
`BALL_RADIUS` and `SCREEN_WIDTH - BALL_RADIUS`, that is between 10 and 790. -/
theorem ball_stays_on_screen (chk : Vector2 → ℚ → Rectangle → Bool) (ks : List Keys) (g : Game)
    (hf : frames chk ks Game.start = some g) :
    BALL_RADIUS ≤ g.ball.position.x ∧ g.ball.position.x ≤ SCREEN_WIDTH - BALL_RADIUS
      ∧ (10 : ℚ) ≤ g.ball.position.x ∧ g.ball.position.x ≤ 790 := by
  obtain ⟨n, hx, h5, h395, _, _, _⟩ := frames_XInv chk ks Game.start g hf BallNew_XInv
  have hn5 : (5 : ℚ) ≤ (n : ℚ) := by exact_mod_cast h5
  have hn395 : (n : ℚ) ≤ 395 := by exact_mod_cast h395
  rw [hx]
  simp only [BALL_RADIUS, SCREEN_WIDTH]
  refine ⟨by linarith, by linarith, by linarith, by linarith⟩

/-- C19 at the state after the game is unpaused and the ball has moved once. -/
theorem ball_stays_on_screen_witness :
    BALL_RADIUS ≤ (update CheckCollisionCircleRec false false
        (Game.start.afterControls Keys.pOnly)).ball.position.x
    ∧ (update CheckCollisionCircleRec false false
        (Game.start.afterControls Keys.pOnly)).ball.position.x ≤ SCREEN_WIDTH - BALL_RADIUS
    ∧ (10 : ℚ) ≤ (update CheckCollisionCircleRec false false
        (Game.start.afterControls Keys.pOnly)).ball.position.x
    ∧ (update CheckCollisionCircleRec false false
        (Game.start.afterControls Keys.pOnly)).ball.position.x ≤ 790 :=
  ball_stays_on_screen CheckCollisionCircleRec [Keys.pOnly]
    (update CheckCollisionCircleRec false false (Game.start.afterControls Keys.pOnly)) rfl

/-! ## Paddle overshoot -/

/-- One call of `PaddleMove`: the ordinate and the dimensions are kept, and
`position.x` is kept or moved by one step. -/
theorem PaddleMove_step (right left : Bool) (p : Paddle) :
    (PaddleMove right left p).position.y = p.position.y
    ∧ (PaddleMove right left p).dimensions = p.dimensions
    ∧ ((PaddleMove right left p).position.x = p.position.x
        ∨ (PaddleMove right left p).position.x = p.position.x + PADDLE_VELOCITY
        ∨ (PaddleMove right left p).position.x = p.position.x - PADDLE_VELOCITY) := by
  simp only [PaddleMove]
  split_ifs <;> simp

/-- One call of `PaddleMove` keeps a paddle of width `PADDLE_WIDTH` within one
step of the screen. -/
theorem PaddleMove_bounds (right left : Bool) (p : Paddle) (hw : p.dimensions.x = PADDLE_WIDTH)
    (hlo : -PADDLE_VELOCITY ≤ p.position.x)
    (hhi : p.position.x ≤ SCREEN_WIDTH - PADDLE_WIDTH + PADDLE_VELOCITY) :
    -PADDLE_VELOCITY ≤ (PaddleMove right left p).position.x
    ∧ (PaddleMove right left p).position.x ≤ SCREEN_WIDTH - PADDLE_WIDTH + PADDLE_VELOCITY := by
  simp only [PaddleMove, hw]
  simp only [PADDLE_VELOCITY, SCREEN_WIDTH, PADDLE_WIDTH] at hlo hhi ⊢
  split_ifs with h1 h2 h2
  · simp only [] at h2 ⊢
    constructor <;> linarith [h1.2, h2.2]
  · simp only [] at h2 ⊢
    constructor <;> linarith [h1.2]
  · simp only [] at h2 ⊢
    constructor <;> linarith [h2.2]
  · constructor <;> linarith

theorem PaddleMoves_bounds (keys : List (Bool × Bool)) :
    ∀ p : Paddle, p.dimensions.x = PADDLE_WIDTH → -PADDLE_VELOCITY ≤ p.position.x →
      p.position.x ≤ SCREEN_WIDTH - PADDLE_WIDTH + PADDLE_VELOCITY →
      -PADDLE_VELOCITY ≤ (PaddleMoves keys p).position.x
      ∧ (PaddleMoves keys p).position.x ≤ SCREEN_WIDTH - PADDLE_WIDTH + PADDLE_VELOCITY
      ∧ (PaddleMoves keys p).position.y = p.position.y
      ∧ (PaddleMoves keys p).dimensions = p.dimensions := by
  induction keys with
  | nil => intro p _ hlo hhi; exact ⟨hlo, hhi, rfl, rfl⟩
  | cons k ks ih =>
    intro p hw hlo hhi
    obtain ⟨hy, hd, _⟩ := PaddleMove_step k.1 k.2 p
    obtain ⟨a, b⟩ := PaddleMove_bounds k.1 k.2 p hw hlo hhi
    obtain ⟨c, d, e, f⟩ := ih (PaddleMove k.1 k.2 p) (by rw [hd]; exact hw) a b
    simp only [PaddleMoves, List.foldl_cons] at c d e f ⊢
    exact ⟨c, d, by rw [e, hy], by rw [f, hd]⟩

/-- C20: after any finite sequence of `PaddleMove` calls from `PaddleNew()`,
with any left and right keys, `position.x` lies between `-PADDLE_VELOCITY` and
`SCREEN_WIDTH - PADDLE_WIDTH + PADDLE_VELOCITY`, that is between -4 and 724,
`position.y` and the dimensions are those of `PaddleNew()`, and a further call
keeps `position.x` or moves it by exactly `PADDLE_VELOCITY` to the right or to
the left. -/
theorem paddle_overshoot_bounded (keys : List (Bool × Bool)) :
    -PADDLE_VELOCITY ≤ (PaddleMoves keys PaddleNew).position.x
    ∧ (PaddleMoves keys PaddleNew).position.x ≤ SCREEN_WIDTH - PADDLE_WIDTH + PADDLE_VELOCITY
    ∧ (-4 : ℚ) ≤ (PaddleMoves keys PaddleNew).position.x
    ∧ (PaddleMoves keys PaddleNew).position.x ≤ 724
    ∧ (PaddleMoves keys PaddleNew).position.y = PaddleNew.position.y
    ∧ (PaddleMoves keys PaddleNew).dimensions = PaddleNew.dimensions
    ∧ (∀ right left : Bool,
        (PaddleMove right left (PaddleMoves keys PaddleNew)).position.x
            = (PaddleMoves keys PaddleNew).position.x
        ∨ (PaddleMove right left (PaddleMoves keys PaddleNew)).position.x
            = (PaddleMoves keys PaddleNew).position.x + PADDLE_VELOCITY
        ∨ (PaddleMove right left (PaddleMoves keys PaddleNew)).position.x
            = (PaddleMoves keys PaddleNew).position.x - PADDLE_VELOCITY) := by
  obtain ⟨a, b, c, d⟩ := PaddleMoves_bounds keys PaddleNew rfl
    (by norm_num [PaddleNew, PADDLE_VELOCITY, SCREEN_WIDTH])
    (by norm_num [PaddleNew, PADDLE_VELOCITY, SCREEN_WIDTH, PADDLE_WIDTH])
  refine ⟨a, b, ?_, ?_, c, d, fun right left => (PaddleMove_step right left _).2.2⟩
  · simpa only [PADDLE_VELOCITY] using a
  · have := b
    simp only [PADDLE_VELOCITY, SCREEN_WIDTH, PADDLE_WIDTH] at this
    linarith

end Arkanoid
